import Mathlib

/-!
Verification development for the RedInk backend image-generation pipeline.

The definitions below are a shallow embedding of
`backend/services/image.py` (class `ImageService`) and of the retry
decorator in `backend/generators/openai_compatible.py`.  Python dicts keyed
by page index are modelled as association lists, the image-generation HTTP
call is modelled as an oracle (`GenEnv.gen`) indexed by page index, prompt,
attempt number and reference image, and the `as_completed` completion order
of the thread pool in high-concurrency mode is an explicit list parameter
(`order`) constrained to be a permutation of the submitted pages.
-/

namespace RedInk

/-! ## Association-list maps (model of Python dicts keyed by page index) -/

/-- Python dict assignment `m[k] = v`: overwrite in place, else append. -/
def mapSet {α β : Type} [DecidableEq α] : List (α × β) → α → β → List (α × β)
  | [], k, v => [(k, v)]
  | (k', v') :: rest, k, v =>
    if k' = k then (k, v) :: rest else (k', v') :: mapSet rest k v

/-- Python `del m[k]` (guarded by `k in m`, so unconditional removal). -/
def mapErase {α β : Type} [DecidableEq α] (m : List (α × β)) (k : α) : List (α × β) :=
  m.filter (fun kv => kv.1 != k)

/-- The key set of a dict, as a list. -/
def mapKeys {α β : Type} (m : List (α × β)) : List α := m.map Prod.fst

/-! ## Data model -/

/-- One page of the request: `{"index": i, "image_prompt": s}`. -/
structure Page where
  index : Nat
  image_prompt : String
deriving Repr, DecidableEq

/-- In-memory task state `self._task_states[task_id]`. -/
structure TaskState where
  total : Nat
  generated : List (Nat × String)
  failed : List (Nat × String)
  cover_image : Option String
  full_outline : String
deriving Repr, DecidableEq

/-- Environment of oracles for one run: the generator adapter outcome for a
given (page index, prompt, attempt, reference image), the thumbnail
compressor, the user-image compressor, the unexpected-exception oracle for
`future.result()` in the concurrent phase, and the provider configuration
flags read in `generate_images`. -/
structure GenEnv where
  gen : Nat → String → Nat → Option String → Except String String
  compress : String → Option String
  compressUser : String → Option String
  crash : Nat → Option String
  high_concurrency : Bool
  max_concurrent : Nat

/-- The `phase` field carried by page-scoped events. -/
inductive Phase where
  | cover
  | content
deriving Repr, DecidableEq

/-- Events yielded by the generators of `ImageService`. -/
inductive Event where
  | progressGeneratingCover (index : Nat) (message : String) (current total : Nat)
  | progressBatchStart (message : String) (current total : Nat)
  | progressGenerating (index current total : Nat)
  | complete (index : Nat) (image_url : String) (phase : Phase)
  | error (index : Nat) (message : String) (retryable : Bool) (phase : Phase)
  | finish (success : Bool) (task_id : String) (images : List String)
      (total completed failed : Nat) (failed_indices : List Nat)
  | retryStart (total : Nat) (message : String)
  | retryComplete (index : Nat) (image_url : String)
  | retryError (index : Nat) (message : String) (retryable : Bool)
  | retryFinish (success : Bool) (total completed failed : Nat)
deriving Repr, DecidableEq

/-- The service-level state touched by the operations under study, for one
fixed task id: the in-memory task state (`none` when the id is absent from
`_task_states`), the files of the task directory (filename → bytes), and the
set of directories created so far. -/
structure ServiceState where
  taskState : Option TaskState
  files : List (String × String)
  dirs : List String
deriving Repr, DecidableEq

/-- Result tuple of `_generate_single_image`. -/
structure SingleResult where
  index : Nat
  success : Bool
  filename : String
  error : String
deriving Repr, DecidableEq

/-- Result dict of `retry_single_image`. -/
inductive RetryOutcome where
  | ok (index : Nat) (image_url : String)
  | err (index : Nat) (error : String) (retryable : Bool)
deriving Repr, DecidableEq

/-! ## `_generate_single_image` -/

/-- `ImageService.AUTO_RETRY_COUNT`. -/
def AUTO_RETRY_COUNT : Nat := 3

/-- `ref_images[0] if ref_images else None`: the reference image is appended
first when truthy, then the user images; the first entry is passed on. -/
def effectiveReference (reference : Option String) (user_images : List String) :
    Option String :=
  let refs :=
    (match reference with
      | some r => if r = "" then [] else [r]
      | none => []) ++ user_images
  refs.head?

/-- One generation attempt: the adapter call plus the
`if not image_data: raise Exception("生成器返回空数据")` guard. -/
def attemptResult (env : GenEnv) (p : Page) (refArg : Option String)
    (attempt : Nat) : Except String String :=
  match env.gen p.index p.image_prompt attempt refArg with
  | Except.error e => Except.error e
  | Except.ok b => if b = "" then Except.error "生成器返回空数据" else Except.ok b

/-- Successful attempt of `_generate_single_image`: write the image file,
best-effort write the thumbnail, return the success tuple (no sleeps). -/
def genSingleSuccess (env : GenEnv) (p : Page) (bytes : String) :
    SingleResult × List (String × String) × List Nat :=
  let fn := toString p.index ++ ".png"
  let writes :=
    match env.compress bytes with
    | some t =>
      if t = "" then [(fn, bytes)]
      else [(fn, bytes), ("thumb_" ++ toString p.index ++ ".png", t)]
    | none => [(fn, bytes)]
  (⟨p.index, true, fn, ""⟩, writes, [])

/-- Body of `_generate_single_image`, with the bounded self-retry expressed
as structural recursion on a fuel equal to the remaining retry budget
(`AUTO_RETRY_COUNT - retry_count`, maintained by the wrapper below, so the
fuel never runs out before the `retry_count < AUTO_RETRY_COUNT` guard turns
false).  Returns the result tuple, the files written, and the list of
`time.sleep` delays performed between attempts. -/
def genSingleGo (env : GenEnv) (p : Page) (refArg : Option String) :
    Nat → Nat → SingleResult × List (String × String) × List Nat
  | retry_count, 0 =>
    match attemptResult env p refArg retry_count with
    | Except.ok bytes => genSingleSuccess env p bytes
    | Except.error e => (⟨p.index, false, "", e⟩, [], [])
  | retry_count, fuel + 1 =>
    match attemptResult env p refArg retry_count with
    | Except.ok bytes => genSingleSuccess env p bytes
    | Except.error e =>
      if retry_count < AUTO_RETRY_COUNT then
        let r := genSingleGo env p refArg (retry_count + 1) fuel
        (r.1, r.2.1, 2 :: r.2.2)
      else (⟨p.index, false, "", e⟩, [], [])

/-- `ImageService._generate_single_image`. -/
def generate_single_image (env : GenEnv) (p : Page) (reference : Option String)
    (user_images : List String) (retry_count : Nat) :
    SingleResult × List (String × String) × List Nat :=
  genSingleGo env p (effectiveReference reference user_images) retry_count
    (AUTO_RETRY_COUNT - retry_count)

/-- Whether a page generation (with its internal retries) succeeds. -/
def pageOk (env : GenEnv) (reference : Option String) (ui : List String)
    (p : Page) : Bool :=
  (generate_single_image env p reference ui 0).1.success

/-! ## `generate_images` -/

/-- Accumulated output of one phase of `generate_images`: events yielded,
task state, `generated_images`, `failed_pages`, task-directory files. -/
structure PhaseOut where
  events : List Event
  ts : TaskState
  gened : List String
  failedPages : List Page
  files : List (String × String)
deriving Repr, DecidableEq

/-- Apply a batch of file writes to the task directory. -/
def applyWrites (files ws : List (String × String)) : List (String × String) :=
  ws.foldl (fun fs kv => mapSet fs kv.1 kv.2) files

/-- `os.makedirs(task_dir, exist_ok=True)`. -/
def addDir (dirs : List String) (d : String) : List String :=
  if d ∈ dirs then dirs else dirs ++ [d]

/-- `f"/api/images/{task_id}/{filename}"`. -/
def imageUrl (task_id filename : String) : String :=
  "/api/images/" ++ task_id ++ "/" ++ filename

/-- Fresh task state written by `generate_images` on entry. -/
def freshTaskState (n : Nat) (outline : String) : TaskState :=
  { total := n, generated := [], failed := [], cover_image := none,
    full_outline := outline }

/-- `compressed_user_images`: each user image compressed, falsy results
dropped. -/
def compressUserImages (env : GenEnv) (user_images : List String) : List String :=
  user_images.filterMap (fun img =>
    match env.compressUser img with
    | some c => if c = "" then none else some c
    | none => none)

/-- The loop `for page in pages: if page.get("index") == 0: cover_page = page`
(the last index-0 page wins). -/
def coverPage (pages : List Page) : Option Page :=
  (pages.filter (fun p => p.index == 0)).getLast?

/-- The pages accumulated into `other_pages`. -/
def otherPages (pages : List Page) : List Page :=
  pages.filter (fun p => p.index != 0)

/-- Batch-start message of the high-concurrency branch. -/
def concMessage (n workers : Nat) : String :=
  "开始并发生成 " ++ toString n ++ " 页内容 (并发数: " ++ toString workers ++ ")..."

/-- Batch-start message of the sequential branch. -/
def seqMessage (n : Nat) : String :=
  "开始顺序生成 " ++ toString n ++ " 页内容..."

/-- Cover phase of `generate_images`: generate the index-0 page with no
reference image, record success/failure in the task state, and on success
read the freshly written cover file back as the reference for the content
phase.  The second component is `cover_image_data`. -/
def coverPhase (env : GenEnv) (task_id : String) (total : Nat)
    (ui : List String) (cp? : Option Page) (ts0 : TaskState)
    (files0 : List (String × String)) : PhaseOut × Option String :=
  match cp? with
  | none => (⟨[], ts0, [], [], files0⟩, none)
  | some cp =>
    let gs := generate_single_image env cp none ui 0
    let files2 := applyWrites files0 gs.2.1
    if gs.1.success then
      let cover := List.lookup gs.1.filename files2
      (⟨[Event.progressGeneratingCover 0 "正在生成封面..." 0 total,
         Event.complete 0 (imageUrl task_id gs.1.filename) Phase.cover],
        { ts0 with generated := mapSet ts0.generated 0 gs.1.filename,
                   cover_image := cover },
        [gs.1.filename], [], files2⟩, cover)
    else
      (⟨[Event.progressGeneratingCover 0 "正在生成封面..." 0 total,
         Event.error 0 gs.1.error true Phase.cover],
        { ts0 with failed := mapSet ts0.failed 0 gs.1.error },
        [], [cp], files2⟩, none)

/-- Sequential content loop (`high_concurrency` false): a `generating`
progress event, then the generation, then a `complete`/`error` event, page
by page in input order. -/
def seqLoop (env : GenEnv) (task_id : String) (total : Nat)
    (reference : Option String) (ui : List String) :
    List Page → TaskState → List String → List Page →
    List (String × String) → PhaseOut
  | [], ts, g, f, files => ⟨[], ts, g, f, files⟩
  | p :: rest, ts, g, f, files =>
    let gs := generate_single_image env p reference ui 0
    let files2 := applyWrites files gs.2.1
    if gs.1.success then
      let out := seqLoop env task_id total reference ui rest
        { ts with generated := mapSet ts.generated gs.1.index gs.1.filename }
        (g ++ [gs.1.filename]) f files2
      { out with events := Event.progressGenerating p.index (g.length + 1) total ::
          Event.complete gs.1.index (imageUrl task_id gs.1.filename) Phase.content ::
          out.events }
    else
      let out := seqLoop env task_id total reference ui rest
        { ts with failed := mapSet ts.failed gs.1.index gs.1.error }
        g (f ++ [p]) files2
      { out with events := Event.progressGenerating p.index (g.length + 1) total ::
          Event.error gs.1.index gs.1.error true Phase.content :: out.events }

/-- Result-collection loop of the high-concurrency branch, over the
`as_completed` completion order.  A worker whose `future.result()` raises an
unexpected exception (`env.crash`) is converted to the same error-event
shape with the page recorded as failed. -/
def concLoop (env : GenEnv) (task_id : String) (total : Nat)
    (reference : Option String) (ui : List String) :
    List Page → TaskState → List String → List Page →
    List (String × String) → PhaseOut
  | [], ts, g, f, files => ⟨[], ts, g, f, files⟩
  | p :: rest, ts, g, f, files =>
    match env.crash p.index with
    | some msg =>
      let out := concLoop env task_id total reference ui rest
        { ts with failed := mapSet ts.failed p.index msg } g (f ++ [p]) files
      { out with events := Event.error p.index msg true Phase.content ::
          out.events }
    | none =>
      let gs := generate_single_image env p reference ui 0
      let files2 := applyWrites files gs.2.1
      if gs.1.success then
        let out := concLoop env task_id total reference ui rest
          { ts with generated := mapSet ts.generated gs.1.index gs.1.filename }
          (g ++ [gs.1.filename]) f files2
        { out with events :=
            (Event.complete gs.1.index (imageUrl task_id gs.1.filename)
              Phase.content :: out.events) }
      else
        let out := concLoop env task_id total reference ui rest
          { ts with failed := mapSet ts.failed gs.1.index gs.1.error }
          g (f ++ [p]) files2
        { out with events :=
            (Event.error gs.1.index gs.1.error true Phase.content ::
              out.events) }

/-- Content phase of `generate_images` (`if other_pages:`): high-concurrency
mode emits a batch-start event, one `generating` event per page up front in
input order, then completion events in `order`; sequential mode interleaves
them page by page. -/
def contentPhase (env : GenEnv) (task_id : String) (total : Nat)
    (ui : List String) (others order : List Page)
    (cov : PhaseOut × Option String) : PhaseOut :=
  let c := cov.1
  if others.isEmpty then ⟨[], c.ts, c.gened, c.failedPages, c.files⟩
  else if env.high_concurrency then
    let lo := concLoop env task_id total cov.2 ui order c.ts c.gened
      c.failedPages c.files
    { lo with events :=
        (Event.progressBatchStart (concMessage others.length env.max_concurrent)
            c.gened.length total ::
          (others.map (fun p =>
            Event.progressGenerating p.index (c.gened.length + 1) total) ++
           lo.events)) }
  else
    let lo := seqLoop env task_id total cov.2 ui others c.ts c.gened
      c.failedPages c.files
    { lo with events :=
        (Event.progressBatchStart (seqMessage others.length)
          c.gened.length total :: lo.events) }

/-- `ImageService.generate_images`, as the full list of yielded events plus
the resulting service state.  `order` is the completion order of the worker
pool in high-concurrency mode (unused otherwise). -/
def generate_images (env : GenEnv) (pages : List Page) (task_id : String)
    (full_outline : String) (user_images : List String) (order : List Page)
    (st : ServiceState) : List Event × ServiceState :=
  let total := pages.length
  let ts0 := freshTaskState total full_outline
  let ui := compressUserImages env user_images
  let cov := coverPhase env task_id total ui (coverPage pages) ts0 st.files
  let cont := contentPhase env task_id total ui (otherPages pages) order cov
  (cov.1.events ++ cont.events ++
    [Event.finish cont.failedPages.isEmpty task_id cont.gened total
      cont.gened.length cont.failedPages.length
      (cont.failedPages.map Page.index)],
   ⟨some cont.ts, cont.files, addDir st.dirs task_id⟩)

/-! ## Retry / regenerate operations and cleanup -/

/-- Truthiness of an optional bytes value (`None` and `b""` are falsy). -/
def optTruthy : Option String → Bool
  | none => false
  | some s => s != ""

/-- Reference-image selection of `retry_single_image`: the in-memory cover
bytes when `use_reference` and the task is present; else, still under
`use_reference`, the persisted cover file `0.png` read from disk when it
exists. -/
def retryReference (use_reference : Bool) (st : ServiceState) : Option String :=
  let ref1 : Option String :=
    if use_reference then
      match st.taskState with
      | some ts => ts.cover_image
      | none => none
    else none
  if use_reference && !optTruthy ref1 then
    match List.lookup "0.png" st.files with
    | some b => some b
    | none => ref1
  else ref1

/-- `ImageService.retry_single_image`. -/
def retry_single_image (env : GenEnv) (task_id : String) (page : Page)
    (use_reference : Bool) (st : ServiceState) : RetryOutcome × ServiceState :=
  let dirs := addDir st.dirs task_id
  let reference := retryReference use_reference st
  let gs := generate_single_image env page reference [] 0
  let files2 := applyWrites st.files gs.2.1
  if gs.1.success then
    (RetryOutcome.ok gs.1.index (imageUrl task_id gs.1.filename),
     ⟨(match st.taskState with
       | some ts => some { ts with
           generated := mapSet ts.generated gs.1.index gs.1.filename,
           failed := mapErase ts.failed gs.1.index }
       | none => none), files2, dirs⟩)
  else
    (RetryOutcome.err gs.1.index gs.1.error true,
     ⟨st.taskState, files2, dirs⟩)

/-- `ImageService.regenerate_image` is an alias of `retry_single_image`. -/
def regenerate_image (env : GenEnv) (task_id : String) (page : Page)
    (use_reference : Bool) (st : ServiceState) : RetryOutcome × ServiceState :=
  retry_single_image env task_id page use_reference st

/-- Reference-image selection of `retry_failed_images` (same fallback chain
as `retry_single_image` with `use_reference` fixed to true). -/
def retryFailedReference (st : ServiceState) : Option String :=
  retryReference true st

/-- Result-collection loop of `retry_failed_images`, over the `as_completed`
completion order: success updates the maps (when the task is present) and
bumps `success_count`; a failure or an unexpected worker exception only
bumps `failed_count` and yields an error event. -/
def retryFailedLoop (env : GenEnv) (task_id : String)
    (reference : Option String) :
    List Page → Option TaskState → Nat → Nat → List (String × String) →
    List Event × Option TaskState × Nat × Nat × List (String × String)
  | [], ts?, sc, fc, files => ([], ts?, sc, fc, files)
  | p :: rest, ts?, sc, fc, files =>
    match env.crash p.index with
    | some msg =>
      let r := retryFailedLoop env task_id reference rest ts? sc (fc + 1) files
      (Event.retryError p.index msg true :: r.1, r.2)
    | none =>
      let gs := generate_single_image env p reference [] 0
      let files2 := applyWrites files gs.2.1
      if gs.1.success then
        let ts2 :=
          match ts? with
          | some ts => some { ts with
              generated := mapSet ts.generated gs.1.index gs.1.filename,
              failed := mapErase ts.failed gs.1.index }
          | none => none
        let r := retryFailedLoop env task_id reference rest ts2 (sc + 1) fc files2
        (Event.retryComplete gs.1.index (imageUrl task_id gs.1.filename) :: r.1,
         r.2)
      else
        let r := retryFailedLoop env task_id reference rest ts? sc (fc + 1) files2
        (Event.retryError gs.1.index gs.1.error true :: r.1, r.2)

/-- `ImageService.retry_failed_images`. -/
def retry_failed_images (env : GenEnv) (task_id : String) (pages : List Page)
    (order : List Page) (st : ServiceState) : List Event × ServiceState :=
  let reference := retryFailedReference st
  let lr := retryFailedLoop env task_id reference order st.taskState 0 0 st.files
  (Event.retryStart pages.length
      ("开始重试 " ++ toString pages.length ++ " 张失败的图片") ::
    (lr.1 ++ [Event.retryFinish (lr.2.2.2.1 == 0) pages.length lr.2.2.1
      lr.2.2.2.1]),
   ⟨lr.2.1, lr.2.2.2.2, st.dirs⟩)

/-- `ImageService.cleanup_task`. -/
def cleanup_task (_task_id : String) (st : ServiceState) : ServiceState :=
  { st with taskState := none }

/-! ## Adapter retry decorator (`openai_compatible.retry_on_error`) -/

/-- `retry_on_error` is applied to `generate_image` with `max_retries=5`. -/
def MAX_RETRIES : Nat := 5

/-- Substring containment. -/
def strContains (s pat : String) : Bool := decide (pat.toList <:+: s.toList)

/-- `"429" in error_str or "rate" in error_str.lower()`. -/
def isRateLimitError (e : String) : Bool :=
  strContains e "429" || strContains e.toLower "rate"

/-- The terminal message raised when the retry loop completes all
iterations (with `max_retries` interpolated as 5). -/
def terminalRetryMessage : String :=
  "图片生成失败：重试 5 次后仍失败。\n可能原因：\n1. API持续限流或配额不足\n" ++
  "2. 网络连接持续不稳定\n3. API服务暂时不可用\n" ++
  "建议：稍后再试，或检查API配额和网络状态"

/-- The `for attempt in range(max_retries)` loop of `retry_on_error`,
structurally recursive on the remaining iterations.  `f` is the wrapped
call's outcome per attempt and `jitter` models `random.uniform(0, 1)`.
Returns the outcome and the list of sleep delays.  The fuel-exhausted case
is the `raise Exception(...)` after the loop. -/
def retryOnErrorGo (f : Nat → Except String String) (jitter : Nat → ℚ)
    (maxRetries : Nat) : Nat → Nat → Except String String × List ℚ
  | _, 0 => (Except.error terminalRetryMessage, [])
  | attempt, fuel + 1 =>
    match f attempt with
    | Except.ok v => (Except.ok v, [])
    | Except.error e =>
      if isRateLimitError e && attempt + 1 < maxRetries then
        let r := retryOnErrorGo f jitter maxRetries (attempt + 1) fuel
        (r.1, ((3 : ℚ) ^ attempt + jitter attempt) :: r.2)
      else if attempt + 1 < maxRetries then
        let r := retryOnErrorGo f jitter maxRetries (attempt + 1) fuel
        (r.1, ((2 : ℚ) ^ attempt) :: r.2)
      else (Except.error e, [])

/-- `OpenAICompatibleGenerator.generate_image` as seen through its
`@retry_on_error(max_retries=5, base_delay=3)` decorator. -/
def generate_image_retry (f : Nat → Except String String) (jitter : Nat → ℚ) :
    Except String String × List ℚ :=
  retryOnErrorGo f jitter MAX_RETRIES 0 MAX_RETRIES

/-! ## Derived predicates used in the specifications -/

/-- Whether the cover (when present) succeeds. -/
def coverOk (env : GenEnv) (ui : List String) (pages : List Page) : Bool :=
  match coverPage pages with
  | some cp => pageOk env none ui cp
  | none => false

/-- Whether a content page ends up generated (as opposed to failed) in the
mode selected by the configuration: in high-concurrency mode an unexpected
worker exception also counts as a failure. -/
def contentOk (env : GenEnv) (reference : Option String) (ui : List String)
    (p : Page) : Bool :=
  if env.high_concurrency then
    (env.crash p.index).isNone && pageOk env reference ui p
  else pageOk env reference ui p

/-- Recognizer for the terminal `finish` event. -/
def isFinish : Event → Bool
  | Event.finish _ _ _ _ _ _ _ => true
  | _ => false

/-- Extract `(phase, index)` from a `complete`/`error` event. -/
def completionTag : Event → Option (Phase × Nat)
  | Event.complete i _ ph => some (ph, i)
  | Event.error i _ _ ph => some (ph, i)
  | _ => none

/-- Extract from a content-phase event whether it is a `generating`
progress event (`true`) or a `complete`/`error` event (`false`), together
with its page index. -/
def contentTag : Event → Option (Bool × Nat)
  | Event.progressGenerating i _ _ => some (true, i)
  | Event.complete i _ Phase.content => some (false, i)
  | Event.error i _ _ Phase.content => some (false, i)
  | _ => none

/-- Whether the cover page candidate succeeds. -/
def coverOkOf (env : GenEnv) (ui : List String) (cp? : Option Page) : Bool :=
  match cp? with
  | some cp => pageOk env none ui cp
  | none => false

/-- Content-page outcome in high-concurrency mode: no unexpected worker
exception and a successful generation. -/
def concOk (env : GenEnv) (reference : Option String) (ui : List String)
    (p : Page) : Bool :=
  (env.crash p.index).isNone && pageOk env reference ui p

/-- A page index is in at most one of `generated`/`failed`. -/
def DisjointMaps (ts : TaskState) : Prop :=
  ∀ i ∈ mapKeys ts.generated, i ∉ mapKeys ts.failed

/-- The disjointness invariant, lifted to the service state. -/
def StateOK (st : ServiceState) : Prop :=
  match st.taskState with
  | some ts => DisjointMaps ts
  | none => True

/-- Amended behaviour of `retry_single_image` on a task present in memory:
on success the page's index is added to `generated` and removed from
`failed` (as in the main pipeline); on failure the task state is left
unchanged — the error is only reported in the returned result, not recorded
in `failed`; and when `use_reference` holds with no truthy in-memory cover
bytes, the persisted cover file `0.png` is used as the reference image. -/
def RetrySingleSpec (env : GenEnv) (tid : String) (page : Page)
    (useRef : Bool) (st : ServiceState) : Prop :=
  (∀ ts, st.taskState = some ts →
    ((generate_single_image env page (retryReference useRef st)
        [] 0).1.success = true →
      (retry_single_image env tid page useRef st).2.taskState =
        some { ts with
          generated := mapSet ts.generated page.index
            (generate_single_image env page (retryReference useRef st)
              [] 0).1.filename,
          failed := mapErase ts.failed page.index } ∧
      (retry_single_image env tid page useRef st).1 =
        RetryOutcome.ok page.index (imageUrl tid
          (generate_single_image env page (retryReference useRef st)
            [] 0).1.filename)) ∧
    ((generate_single_image env page (retryReference useRef st)
        [] 0).1.success = false →
      (retry_single_image env tid page useRef st).2.taskState = some ts ∧
      (retry_single_image env tid page useRef st).1 =
        RetryOutcome.err page.index
          (generate_single_image env page (retryReference useRef st)
            [] 0).1.error true)) ∧
  (useRef = true →
    optTruthy (match st.taskState with
      | some ts => ts.cover_image
      | none => none) = false →
    ∀ b, List.lookup "0.png" st.files = some b →
      retryReference useRef st = some b)

/-! ## Concrete instances used for witnesses and counterexamples -/

/-- An adapter that always returns the same image bytes, sequential mode. -/
def envAllOk : GenEnv :=
  { gen := fun _ _ _ _ => Except.ok "IMG", compress := fun _ => none,
    compressUser := fun _ => none, crash := fun _ => none,
    high_concurrency := false, max_concurrent := 2 }

/-- The always-succeeding adapter in high-concurrency mode. -/
def envAllOkConc : GenEnv :=
  { envAllOk with high_concurrency := true }

/-- An adapter that fails deterministically for page index 1. -/
def envFailPage1 : GenEnv :=
  { envAllOk with
    gen := fun i _ _ _ =>
      if i = 1 then Except.error "fail1" else Except.ok "IMG" }

/-- An adapter that always fails. -/
def envAlwaysFail : GenEnv :=
  { envAllOk with gen := fun _ _ _ _ => Except.error "boom" }

/-- The three-page scenario of the specification. -/
def pages3 : List Page := [⟨0, "cover prompt"⟩, ⟨1, "p1"⟩, ⟨2, "p2"⟩]

/-- A service state with no in-memory task and an empty task directory. -/
def stEmpty : ServiceState := ⟨none, [], []⟩

/-- A service state holding a task with empty maps and no cover bytes. -/
def stWithTask : ServiceState := ⟨some ⟨3, [], [], none, ""⟩, [], []⟩

/-- An upstream call that always answers HTTP 429. -/
def f429 : Nat → Except String String :=
  fun _ => Except.error "HTTP 429 Too Many Requests"

/-- A jitter oracle that always draws 0. -/
def zeroJitter : Nat → ℚ := fun _ => 0

/-! ## Lemmas about the dict model -/

theorem mem_mapKeys_mapSet {α β : Type} [DecidableEq α] (m : List (α × β))
    (k : α) (v : β) (a : α) :
    a ∈ mapKeys (mapSet m k v) ↔ a = k ∨ a ∈ mapKeys m := by
  induction m with
  | nil => simp [mapSet, mapKeys]
  | cons kv rest ih =>
    obtain ⟨k', v'⟩ := kv
    simp only [mapSet]
    split
    · next h =>
      subst h
      simp only [mapKeys, List.map_cons, List.mem_cons]
      tauto
    · next h =>
      simp only [mapKeys, List.map_cons, List.mem_cons] at ih ⊢
      tauto

theorem mem_mapKeys_mapErase {α β : Type} [DecidableEq α]
    (m : List (α × β)) (k a : α) :
    a ∈ mapKeys (mapErase m k) ↔ a ∈ mapKeys m ∧ a ≠ k := by
  simp only [mapErase, mapKeys, List.mem_map, List.mem_filter, bne_iff_ne]
  constructor
  · rintro ⟨kv, ⟨hm, hne⟩, rfl⟩
    exact ⟨⟨kv, hm, rfl⟩, hne⟩
  · rintro ⟨⟨kv, hm, rfl⟩, hne⟩
    exact ⟨kv, ⟨hm, hne⟩, rfl⟩

/-! ## Lemmas about `_generate_single_image` -/

theorem genSingleGo_index (env : GenEnv) (p : Page) (ra : Option String) :
    ∀ fuel r, (genSingleGo env p ra r fuel).1.index = p.index := by
  intro fuel
  induction fuel with
  | zero =>
    intro r
    cases h : attemptResult env p ra r with
    | ok b => simp [genSingleGo, h, genSingleSuccess]
    | error e => simp [genSingleGo, h]
  | succ fuel ih =>
    intro r
    cases h : attemptResult env p ra r with
    | ok b => simp [genSingleGo, h, genSingleSuccess]
    | error e =>
      by_cases hr : r < AUTO_RETRY_COUNT
      · simp [genSingleGo, h, hr, ih (r + 1)]
      · simp [genSingleGo, h, hr]

theorem generate_single_image_index (env : GenEnv) (p : Page)
    (reference : Option String) (ui : List String) (r : Nat) :
    (generate_single_image env p reference ui r).1.index = p.index :=
  genSingleGo_index env p (effectiveReference reference ui) _ r

/-- Between consecutive attempts the delay is the fixed 2 seconds, and at
most `fuel` retries happen. -/
theorem genSingleGo_sleeps (env : GenEnv) (p : Page) (ra : Option String) :
    ∀ fuel r, ∃ k, k ≤ fuel ∧
      (genSingleGo env p ra r fuel).2.2 = List.replicate k 2 := by
  intro fuel
  induction fuel with
  | zero =>
    intro r
    refine ⟨0, Nat.le_refl 0, ?_⟩
    cases h : attemptResult env p ra r with
    | ok b => simp [genSingleGo, h, genSingleSuccess]
    | error e => simp [genSingleGo, h]
  | succ fuel ih =>
    intro r
    cases h : attemptResult env p ra r with
    | ok b => exact ⟨0, Nat.zero_le _, by simp [genSingleGo, h, genSingleSuccess]⟩
    | error e =>
      by_cases hr : r < AUTO_RETRY_COUNT
      · obtain ⟨k, hk, hrep⟩ := ih (r + 1)
        exact ⟨k + 1, Nat.succ_le_succ hk,
          by simp [genSingleGo, h, hr, hrep, List.replicate_succ]⟩
      · exact ⟨0, Nat.zero_le _, by simp [genSingleGo, h, hr]⟩

/-- A failure result is only produced after the whole retry budget is
spent: every attempt in the budget failed, the sleeps are exactly one
2-second delay per retry, and the reported error message is the final
attempt's. -/
theorem genSingleGo_fail (env : GenEnv) (p : Page) (ra : Option String) :
    ∀ fuel r, AUTO_RETRY_COUNT = r + fuel →
      (genSingleGo env p ra r fuel).1.success = false →
      (genSingleGo env p ra r fuel).2.2 = List.replicate fuel 2 ∧
      (∀ i, r ≤ i → i ≤ AUTO_RETRY_COUNT →
        ∃ e, attemptResult env p ra i = Except.error e) ∧
      attemptResult env p ra AUTO_RETRY_COUNT =
        Except.error (genSingleGo env p ra r fuel).1.error := by
  intro fuel
  induction fuel with
  | zero =>
    intro r hbudget hfail
    cases h : attemptResult env p ra r with
    | ok b => simp [genSingleGo, h, genSingleSuccess] at hfail
    | error e =>
      have hre : r = AUTO_RETRY_COUNT := by omega
      subst hre
      refine ⟨by simp [genSingleGo, h], ?_, ?_⟩
      · intro i hi hi'
        have : i = AUTO_RETRY_COUNT := Nat.le_antisymm hi' hi
        subst this
        exact ⟨e, h⟩
      · simp [genSingleGo, h]
  | succ fuel ih =>
    intro r hbudget hfail
    have hr : r < AUTO_RETRY_COUNT := by omega
    cases h : attemptResult env p ra r with
    | ok b => simp [genSingleGo, h, genSingleSuccess] at hfail
    | error e =>
      have hfail' : (genSingleGo env p ra (r + 1) fuel).1.success = false := by
        simp only [genSingleGo, h, if_pos hr] at hfail
        exact hfail
      obtain ⟨hrep, hall, hlast⟩ := ih (r + 1) (by omega) hfail'
      refine ⟨by simp [genSingleGo, h, hr, hrep, List.replicate_succ], ?_, ?_⟩
      · intro i hi hi'
        rcases Nat.eq_or_lt_of_le hi with heq | hlt
        · exact heq ▸ ⟨e, h⟩
        · exact hall i hlt hi'
      · simpa [genSingleGo, h, hr] using hlast

/-! ## Lemmas about the content-phase loops -/

section LoopLemmas

variable (env : GenEnv) (tid : String) (total : Nat)
  (reference : Option String) (ui : List String)

theorem seqLoop_generated_mem :
    ∀ (l : List Page) (ts : TaskState) (g : List String) (f : List Page)
      (files : List (String × String)) (i : Nat),
      i ∈ mapKeys (seqLoop env tid total reference ui l ts g f files).ts.generated ↔
        i ∈ mapKeys ts.generated ∨
        ∃ p, p ∈ l ∧ p.index = i ∧ pageOk env reference ui p = true := by
  intro l
  induction l with
  | nil => intro ts g f files i; simp [seqLoop]
  | cons p rest ih =>
    intro ts g f files i
    by_cases hp : (generate_single_image env p reference ui 0).1.success = true
    · simp only [seqLoop, hp, if_true]
      rw [ih, mem_mapKeys_mapSet, generate_single_image_index]
      constructor
      · rintro (h | ⟨q, hq, hidx, hok⟩)
        · rcases h with rfl | h
          · exact Or.inr ⟨p, List.mem_cons_self p rest, rfl, hp⟩
          · exact Or.inl h
        · exact Or.inr ⟨q, List.mem_cons_of_mem p hq, hidx, hok⟩
      · rintro (h | ⟨q, hq, hidx, hok⟩)
        · exact Or.inl (Or.inr h)
        · rcases List.mem_cons.mp hq with rfl | hq'
          · exact Or.inl (Or.inl hidx.symm)
          · exact Or.inr ⟨q, hq', hidx, hok⟩
    · rw [Bool.not_eq_true] at hp
      simp only [seqLoop, hp, Bool.false_eq_true, if_false]
      rw [ih]
      simp only [List.mem_cons, exists_eq_or_imp, pageOk, hp,
        Bool.false_eq_true, and_false, false_and, false_or]

theorem seqLoop_failed_mem :
    ∀ (l : List Page) (ts : TaskState) (g : List String) (f : List Page)
      (files : List (String × String)) (i : Nat),
      i ∈ mapKeys (seqLoop env tid total reference ui l ts g f files).ts.failed ↔
        i ∈ mapKeys ts.failed ∨
        ∃ p, p ∈ l ∧ p.index = i ∧ pageOk env reference ui p = false := by
  intro l
  induction l with
  | nil => intro ts g f files i; simp [seqLoop]
  | cons p rest ih =>
    intro ts g f files i
    by_cases hp : (generate_single_image env p reference ui 0).1.success = true
    · simp only [seqLoop, hp, if_true]
      rw [ih]
      simp only [List.mem_cons, exists_eq_or_imp, pageOk, hp,
        Bool.true_eq_false, and_false, false_and, false_or]
    · rw [Bool.not_eq_true] at hp
      simp only [seqLoop, hp, Bool.false_eq_true, if_false]
      rw [ih, mem_mapKeys_mapSet, generate_single_image_index]
      constructor
      · rintro (h | ⟨q, hq, hidx, hok⟩)
        · rcases h with rfl | h
          · exact Or.inr ⟨p, List.mem_cons_self p rest, rfl, hp⟩
          · exact Or.inl h
        · exact Or.inr ⟨q, List.mem_cons_of_mem p hq, hidx, hok⟩
      · rintro (h | ⟨q, hq, hidx, hok⟩)
        · exact Or.inl (Or.inr h)
        · rcases List.mem_cons.mp hq with rfl | hq'
          · exact Or.inl (Or.inl hidx.symm)
          · exact Or.inr ⟨q, hq', hidx, hok⟩

theorem seqLoop_gened_length :
    ∀ (l : List Page) (ts : TaskState) (g : List String) (f : List Page)
      (files : List (String × String)),
      (seqLoop env tid total reference ui l ts g f files).gened.length =
        g.length + l.countP (pageOk env reference ui) := by
  intro l
  induction l with
  | nil => intro ts g f files; simp [seqLoop]
  | cons p rest ih =>
    intro ts g f files
    by_cases hp : (generate_single_image env p reference ui 0).1.success = true
    · simp only [seqLoop, hp, if_true, ih, List.countP_cons, pageOk,
        List.length_append, List.length_cons, List.length_nil]
      simp [pageOk, hp]
      omega
    · rw [Bool.not_eq_true] at hp
      simp only [seqLoop, hp, Bool.false_eq_true, if_false, ih,
        List.countP_cons]
      simp [pageOk, hp]

theorem seqLoop_failedPages :
    ∀ (l : List Page) (ts : TaskState) (g : List String) (f : List Page)
      (files : List (String × String)),
      (seqLoop env tid total reference ui l ts g f files).failedPages =
        f ++ l.filter (fun p => !(pageOk env reference ui p)) := by
  intro l
  induction l with
  | nil => intro ts g f files; simp [seqLoop]
  | cons p rest ih =>
    intro ts g f files
    by_cases hp : (generate_single_image env p reference ui 0).1.success = true
    · simp only [seqLoop, hp, if_true, ih, List.filter_cons]
      simp [pageOk, hp]
    · rw [Bool.not_eq_true] at hp
      simp only [seqLoop, hp, Bool.false_eq_true, if_false, ih,
        List.filter_cons]
      simp [pageOk, hp]

theorem seqLoop_events_tags :
    ∀ (l : List Page) (ts : TaskState) (g : List String) (f : List Page)
      (files : List (String × String)),
      (seqLoop env tid total reference ui l ts g f files).events.filterMap
          completionTag =
        l.map (fun p => (Phase.content, p.index)) := by
  intro l
  induction l with
  | nil => intro ts g f files; simp [seqLoop]
  | cons p rest ih =>
    intro ts g f files
    by_cases hp : (generate_single_image env p reference ui 0).1.success = true
    · simp only [seqLoop, hp, if_true]
      simp [completionTag, ih, generate_single_image_index]
    · rw [Bool.not_eq_true] at hp
      simp only [seqLoop, hp, Bool.false_eq_true, if_false]
      simp [completionTag, ih, generate_single_image_index]

theorem seqLoop_events_noFinish :
    ∀ (l : List Page) (ts : TaskState) (g : List String) (f : List Page)
      (files : List (String × String)) (e : Event),
      e ∈ (seqLoop env tid total reference ui l ts g f files).events →
        isFinish e = false := by
  intro l
  induction l with
  | nil => intro ts g f files e he; simp [seqLoop] at he
  | cons p rest ih =>
    intro ts g f files e he
    by_cases hp : (generate_single_image env p reference ui 0).1.success = true
    · simp only [seqLoop, hp, if_true, List.mem_cons] at he
      rcases he with rfl | rfl | he
      · rfl
      · rfl
      · exact ih _ _ _ _ e he
    · rw [Bool.not_eq_true] at hp
      simp only [seqLoop, hp, Bool.false_eq_true, if_false,
        List.mem_cons] at he
      rcases he with rfl | rfl | he
      · rfl
      · rfl
      · exact ih _ _ _ _ e he

theorem seqLoop_ts_fields :
    ∀ (l : List Page) (ts : TaskState) (g : List String) (f : List Page)
      (files : List (String × String)),
      (seqLoop env tid total reference ui l ts g f files).ts.total = ts.total ∧
      (seqLoop env tid total reference ui l ts g f files).ts.cover_image =
        ts.cover_image ∧
      (seqLoop env tid total reference ui l ts g f files).ts.full_outline =
        ts.full_outline := by
  intro l
  induction l with
  | nil => intro ts g f files; simp [seqLoop]
  | cons p rest ih =>
    intro ts g f files
    by_cases hp : (generate_single_image env p reference ui 0).1.success = true
    · simpa only [seqLoop, hp, if_true] using ih _ _ _ _
    · rw [Bool.not_eq_true] at hp
      simpa only [seqLoop, hp, Bool.false_eq_true, if_false] using ih _ _ _ _

theorem concLoop_generated_mem :
    ∀ (l : List Page) (ts : TaskState) (g : List String) (f : List Page)
      (files : List (String × String)) (i : Nat),
      i ∈ mapKeys (concLoop env tid total reference ui l ts g f files).ts.generated ↔
        i ∈ mapKeys ts.generated ∨
        ∃ p, p ∈ l ∧ p.index = i ∧ concOk env reference ui p = true := by
  intro l
  induction l with
  | nil => intro ts g f files i; simp [concLoop]
  | cons p rest ih =>
    intro ts g f files i
    cases hc : env.crash p.index with
    | some msg =>
      simp only [concLoop, hc]
      rw [ih]
      simp only [List.mem_cons, exists_eq_or_imp, concOk, hc,
        Option.isNone_some, Bool.false_and, Bool.false_eq_true, and_false,
        false_and, false_or]
    | none =>
      by_cases hp : (generate_single_image env p reference ui 0).1.success = true
      · simp only [concLoop, hc, hp, if_true]
        rw [ih, mem_mapKeys_mapSet, generate_single_image_index]
        have hok : concOk env reference ui p = true := by
          simp [concOk, hc, pageOk, hp]
        constructor
        · rintro (h | ⟨q, hq, hidx, hq'⟩)
          · rcases h with rfl | h
            · exact Or.inr ⟨p, List.mem_cons_self p rest, rfl, hok⟩
            · exact Or.inl h
          · exact Or.inr ⟨q, List.mem_cons_of_mem p hq, hidx, hq'⟩
        · rintro (h | ⟨q, hq, hidx, hq'⟩)
          · exact Or.inl (Or.inr h)
          · rcases List.mem_cons.mp hq with rfl | hmem
            · exact Or.inl (Or.inl hidx.symm)
            · exact Or.inr ⟨q, hmem, hidx, hq'⟩
      · rw [Bool.not_eq_true] at hp
        simp only [concLoop, hc, hp, Bool.false_eq_true, if_false]
        rw [ih]
        simp only [List.mem_cons, exists_eq_or_imp, concOk, hc,
          Option.isNone_none, Bool.true_and, pageOk, hp, Bool.false_eq_true,
          and_false, false_and, false_or]

theorem concLoop_failed_mem :
    ∀ (l : List Page) (ts : TaskState) (g : List String) (f : List Page)
      (files : List (String × String)) (i : Nat),
      i ∈ mapKeys (concLoop env tid total reference ui l ts g f files).ts.failed ↔
        i ∈ mapKeys ts.failed ∨
        ∃ p, p ∈ l ∧ p.index = i ∧ concOk env reference ui p = false := by
  intro l
  induction l with
  | nil => intro ts g f files i; simp [concLoop]
  | cons p rest ih =>
    intro ts g f files i
    cases hc : env.crash p.index with
    | some msg =>
      simp only [concLoop, hc]
      rw [ih, mem_mapKeys_mapSet]
      have hko : concOk env reference ui p = false := by
        simp [concOk, hc]
      constructor
      · rintro (h | ⟨q, hq, hidx, hq'⟩)
        · rcases h with rfl | h
          · exact Or.inr ⟨p, List.mem_cons_self p rest, rfl, hko⟩
          · exact Or.inl h
        · exact Or.inr ⟨q, List.mem_cons_of_mem p hq, hidx, hq'⟩
      · rintro (h | ⟨q, hq, hidx, hq'⟩)
        · exact Or.inl (Or.inr h)
        · rcases List.mem_cons.mp hq with rfl | hmem
          · exact Or.inl (Or.inl hidx.symm)
          · exact Or.inr ⟨q, hmem, hidx, hq'⟩
    | none =>
      by_cases hp : (generate_single_image env p reference ui 0).1.success = true
      · simp only [concLoop, hc, hp, if_true]
        rw [ih]
        have hok : concOk env reference ui p = true := by
          simp [concOk, hc, pageOk, hp]
        simp only [List.mem_cons, exists_eq_or_imp, hok, Bool.true_eq_false,
          and_false, false_and, false_or]
      · rw [Bool.not_eq_true] at hp
        simp only [concLoop, hc, hp, Bool.false_eq_true, if_false]
        rw [ih, mem_mapKeys_mapSet, generate_single_image_index]
        have hko : concOk env reference ui p = false := by
          simp [concOk, hc, pageOk, hp]
        constructor
        · rintro (h | ⟨q, hq, hidx, hq'⟩)
          · rcases h with rfl | h
            · exact Or.inr ⟨p, List.mem_cons_self p rest, rfl, hko⟩
            · exact Or.inl h
          · exact Or.inr ⟨q, List.mem_cons_of_mem p hq, hidx, hq'⟩
        · rintro (h | ⟨q, hq, hidx, hq'⟩)
          · exact Or.inl (Or.inr h)
          · rcases List.mem_cons.mp hq with rfl | hmem
            · exact Or.inl (Or.inl hidx.symm)
            · exact Or.inr ⟨q, hmem, hidx, hq'⟩

theorem concLoop_gened_length :
    ∀ (l : List Page) (ts : TaskState) (g : List String) (f : List Page)
      (files : List (String × String)),
      (concLoop env tid total reference ui l ts g f files).gened.length =
        g.length + l.countP (concOk env reference ui) := by
  intro l
  induction l with
  | nil => intro ts g f files; simp [concLoop]
  | cons p rest ih =>
    intro ts g f files
    cases hc : env.crash p.index with
    | some msg =>
      simp only [concLoop, hc, ih, List.countP_cons]
      simp [concOk, hc]
    | none =>
      by_cases hp : (generate_single_image env p reference ui 0).1.success = true
      · simp only [concLoop, hc, hp, if_true, ih, List.countP_cons,
          List.length_append, List.length_cons, List.length_nil]
        have hok : concOk env reference ui p = true := by
          simp [concOk, hc, pageOk, hp]
        simp [hok]
        omega
      · rw [Bool.not_eq_true] at hp
        simp only [concLoop, hc, hp, Bool.false_eq_true, if_false, ih,
          List.countP_cons]
        have hko : concOk env reference ui p = false := by
          simp [concOk, hc, pageOk, hp]
        simp [hko]

theorem concLoop_failedPages :
    ∀ (l : List Page) (ts : TaskState) (g : List String) (f : List Page)
      (files : List (String × String)),
      (concLoop env tid total reference ui l ts g f files).failedPages =
        f ++ l.filter (fun p => !(concOk env reference ui p)) := by
  intro l
  induction l with
  | nil => intro ts g f files; simp [concLoop]
  | cons p rest ih =>
    intro ts g f files
    cases hc : env.crash p.index with
    | some msg =>
      simp only [concLoop, hc, ih, List.filter_cons]
      have hko : concOk env reference ui p = false := by
        simp [concOk, hc]
      simp [hko]
    | none =>
      by_cases hp : (generate_single_image env p reference ui 0).1.success = true
      · simp only [concLoop, hc, hp, if_true, ih, List.filter_cons]
        have hok : concOk env reference ui p = true := by
          simp [concOk, hc, pageOk, hp]
        simp [hok]
      · rw [Bool.not_eq_true] at hp
        simp only [concLoop, hc, hp, Bool.false_eq_true, if_false, ih,
          List.filter_cons]
        have hko : concOk env reference ui p = false := by
          simp [concOk, hc, pageOk, hp]
        simp [hko]

theorem concLoop_events_tags :
    ∀ (l : List Page) (ts : TaskState) (g : List String) (f : List Page)
      (files : List (String × String)),
      (concLoop env tid total reference ui l ts g f files).events.filterMap
          contentTag =
        l.map (fun p => (false, p.index)) := by
  intro l
  induction l with
  | nil => intro ts g f files; simp [concLoop]
  | cons p rest ih =>
    intro ts g f files
    cases hc : env.crash p.index with
    | some msg =>
      simp only [concLoop, hc]
      simp [contentTag, ih]
    | none =>
      by_cases hp : (generate_single_image env p reference ui 0).1.success = true
      · simp only [concLoop, hc, hp, if_true]
        simp [contentTag, ih, generate_single_image_index]
      · rw [Bool.not_eq_true] at hp
        simp only [concLoop, hc, hp, Bool.false_eq_true, if_false]
        simp [contentTag, ih, generate_single_image_index]

theorem concLoop_events_noFinish :
    ∀ (l : List Page) (ts : TaskState) (g : List String) (f : List Page)
      (files : List (String × String)) (e : Event),
      e ∈ (concLoop env tid total reference ui l ts g f files).events →
        isFinish e = false := by
  intro l
  induction l with
  | nil => intro ts g f files e he; simp [concLoop] at he
  | cons p rest ih =>
    intro ts g f files e he
    cases hc : env.crash p.index with
    | some msg =>
      simp only [concLoop, hc, List.mem_cons] at he
      rcases he with rfl | he
      · rfl
      · exact ih _ _ _ _ e he
    | none =>
      by_cases hp : (generate_single_image env p reference ui 0).1.success = true
      · simp only [concLoop, hc, hp, if_true, List.mem_cons] at he
        rcases he with rfl | he
        · rfl
        · exact ih _ _ _ _ e he
      · rw [Bool.not_eq_true] at hp
        simp only [concLoop, hc, hp, Bool.false_eq_true, if_false,
          List.mem_cons] at he
        rcases he with rfl | he
        · rfl
        · exact ih _ _ _ _ e he

theorem concLoop_ts_fields :
    ∀ (l : List Page) (ts : TaskState) (g : List String) (f : List Page)
      (files : List (String × String)),
      (concLoop env tid total reference ui l ts g f files).ts.total = ts.total ∧
      (concLoop env tid total reference ui l ts g f files).ts.cover_image =
        ts.cover_image ∧
      (concLoop env tid total reference ui l ts g f files).ts.full_outline =
        ts.full_outline := by
  intro l
  induction l with
  | nil => intro ts g f files; simp [concLoop]
  | cons p rest ih =>
    intro ts g f files
    cases hc : env.crash p.index with
    | some msg => simpa only [concLoop, hc] using ih _ _ _ _
    | none =>
      by_cases hp : (generate_single_image env p reference ui 0).1.success = true
      · simpa only [concLoop, hc, hp, if_true] using ih _ _ _ _
      · rw [Bool.not_eq_true] at hp
        simpa only [concLoop, hc, hp, Bool.false_eq_true, if_false]
          using ih _ _ _ _

end LoopLemmas

/-! ## Lemmas about cover-page selection -/

theorem indexNe_symm : Symmetric (fun a b : Page => a.index ≠ b.index) :=
  fun _ _ h => Ne.symm h

theorem coverPage_index {pages : List Page} {cp : Page}
    (h : coverPage pages = some cp) : cp.index = 0 := by
  unfold coverPage at h
  have hmem : cp ∈ pages.filter (fun p => p.index == 0) :=
    List.mem_of_mem_getLast? (Option.mem_def.mpr h)
  simpa using List.of_mem_filter hmem

theorem coverPage_isSome_iff {pages : List Page} :
    (coverPage pages).isSome = true ↔ ∃ p, p ∈ pages ∧ p.index = 0 := by
  unfold coverPage
  rw [List.getLast?_isSome]
  constructor
  · intro h
    obtain ⟨x, hx⟩ := List.exists_mem_of_ne_nil _ h
    exact ⟨x, List.mem_of_mem_filter hx, by simpa using List.of_mem_filter hx⟩
  · rintro ⟨p, hp, hidx⟩ hnil
    have hmem : p ∈ pages.filter (fun q => q.index == 0) :=
      List.mem_filter.mpr ⟨hp, by simpa using hidx⟩
    rw [hnil] at hmem
    simp at hmem

theorem coverFilter_length_le_one {pages : List Page}
    (hdist : pages.Pairwise (fun a b => a.index ≠ b.index)) :
    (pages.filter (fun p => p.index == 0)).length ≤ 1 := by
  have hpw := List.Pairwise.sublist
    (List.filter_sublist (p := fun p => p.index == 0) pages) hdist
  cases hfl : pages.filter (fun p => p.index == 0) with
  | nil => simp
  | cons x tl =>
    cases tl with
    | nil => simp
    | cons y tl2 =>
      exfalso
      rw [hfl] at hpw
      have hxy := (List.pairwise_cons.mp hpw).1 y (List.mem_cons_self y tl2)
      have hx : x ∈ pages.filter (fun p => p.index == 0) := by
        rw [hfl]; exact List.mem_cons_self _ _
      have hy : y ∈ pages.filter (fun p => p.index == 0) := by
        rw [hfl]; exact List.mem_cons_of_mem _ (List.mem_cons_self _ _)
      have hx0 : x.index = 0 := by simpa using List.of_mem_filter hx
      have hy0 : y.index = 0 := by simpa using List.of_mem_filter hy
      exact hxy (hx0.trans hy0.symm)

theorem pages_length_cover (pages : List Page)
    (hdist : pages.Pairwise (fun a b => a.index ≠ b.index)) :
    pages.length =
      (if (coverPage pages).isSome = true then 1 else 0) +
        (otherPages pages).length := by
  have hsplit := List.length_eq_length_filter_add
    (l := pages) (fun p => p.index == 0)
  have hother : otherPages pages =
      pages.filter (fun x => !(x.index == 0)) := rfl
  rw [hother]
  by_cases h : (coverPage pages).isSome = true
  · rw [if_pos h]
    have hne : pages.filter (fun p => p.index == 0) ≠ [] := by
      unfold coverPage at h
      exact List.getLast?_isSome.mp h
    have h1 : 0 < (pages.filter (fun p => p.index == 0)).length :=
      List.length_pos.mpr hne
    have h2 := coverFilter_length_le_one hdist
    omega
  · rw [if_neg h]
    unfold coverPage at h
    have hnil : pages.filter (fun p => p.index == 0) = [] := by
      by_contra hne
      exact h (List.getLast?_isSome.mpr hne)
    rw [hnil] at hsplit
    simpa using hsplit

/-! ## Behaviour of the two modes saturated into `contentOk` -/

theorem contentOk_of_conc (env : GenEnv) (reference : Option String)
    (ui : List String) (hhc : env.high_concurrency = true) (p : Page) :
    contentOk env reference ui p = concOk env reference ui p := by
  simp [contentOk, concOk, hhc]

theorem contentOk_of_seq (env : GenEnv) (reference : Option String)
    (ui : List String) (hhc : env.high_concurrency = false) (p : Page) :
    contentOk env reference ui p = pageOk env reference ui p := by
  simp [contentOk, hhc]

/-- Summary of the content phase: there is a processing list `L` (the input
order in sequential mode, the completion order in concurrent mode — a
permutation of `other_pages` either way) such that the maps gain exactly
the successes/failures of `L`, the counters advance accordingly, and no
`finish` event is emitted. -/
theorem contentPhase_spec (env : GenEnv) (tid : String) (total : Nat)
    (ui : List String) (others order : List Page) (c : PhaseOut)
    (covRef : Option String) (hperm : order.Perm others) :
    ∃ (ref : Option String) (L : List Page),
      L.Perm others ∧
      (∀ i, i ∈ mapKeys
          (contentPhase env tid total ui others order (c, covRef)).ts.generated ↔
        i ∈ mapKeys c.ts.generated ∨
        ∃ p, p ∈ L ∧ p.index = i ∧ contentOk env ref ui p = true) ∧
      (∀ i, i ∈ mapKeys
          (contentPhase env tid total ui others order (c, covRef)).ts.failed ↔
        i ∈ mapKeys c.ts.failed ∨
        ∃ p, p ∈ L ∧ p.index = i ∧ contentOk env ref ui p = false) ∧
      (contentPhase env tid total ui others order (c, covRef)).ts.total =
        c.ts.total ∧
      (contentPhase env tid total ui others order (c, covRef)).ts.full_outline =
        c.ts.full_outline ∧
      (contentPhase env tid total ui others order (c, covRef)).gened.length =
        c.gened.length + L.countP (contentOk env ref ui) ∧
      (contentPhase env tid total ui others order (c, covRef)).failedPages =
        c.failedPages ++ L.filter (fun p => !(contentOk env ref ui p)) ∧
      (∀ e, e ∈ (contentPhase env tid total ui others order (c, covRef)).events →
        isFinish e = false) := by
  by_cases hoe : others.isEmpty = true
  · have hnil : others = [] := List.isEmpty_iff.mp hoe
    refine ⟨covRef, [], by rw [hnil], ?_, ?_, ?_, ?_, ?_, ?_, ?_⟩ <;>
      simp [contentPhase, hoe]
  · rw [Bool.not_eq_true] at hoe
    cases hhc : env.high_concurrency with
    | true =>
      refine ⟨covRef, order, hperm, ?_, ?_, ?_, ?_, ?_, ?_, ?_⟩
      · intro i
        simp only [contentPhase, hoe, Bool.false_eq_true, if_false, hhc,
          if_true]
        rw [concLoop_generated_mem]
        simp only [contentOk_of_conc env covRef ui hhc]
      · intro i
        simp only [contentPhase, hoe, Bool.false_eq_true, if_false, hhc,
          if_true]
        rw [concLoop_failed_mem]
        simp only [contentOk_of_conc env covRef ui hhc]
      · simp only [contentPhase, hoe, Bool.false_eq_true, if_false, hhc,
          if_true]
        exact (concLoop_ts_fields env tid total covRef ui order _ _ _ _).1
      · simp only [contentPhase, hoe, Bool.false_eq_true, if_false, hhc,
          if_true]
        exact (concLoop_ts_fields env tid total covRef ui order _ _ _ _).2.2
      · simp only [contentPhase, hoe, Bool.false_eq_true, if_false, hhc,
          if_true]
        rw [concLoop_gened_length]
        congr 1
        apply List.countP_congr
        intro p _
        rw [contentOk_of_conc env covRef ui hhc p]
      · simp only [contentPhase, hoe, Bool.false_eq_true, if_false, hhc,
          if_true]
        rw [concLoop_failedPages]
        congr 1
        exact List.filter_congr (fun p _ => by
          rw [contentOk_of_conc env covRef ui hhc p])
      · intro e he
        simp only [contentPhase, hoe, Bool.false_eq_true, if_false, hhc,
          if_true, List.mem_cons, List.mem_append, List.mem_map] at he
        rcases he with rfl | ⟨p, _, rfl⟩ | he
        · rfl
        · rfl
        · exact concLoop_events_noFinish env tid total covRef ui order
            _ _ _ _ e he
    | false =>
      refine ⟨covRef, others, List.Perm.refl others, ?_, ?_, ?_, ?_, ?_, ?_, ?_⟩
      · intro i
        simp only [contentPhase, hoe, Bool.false_eq_true, if_false, hhc]
        rw [seqLoop_generated_mem]
        simp only [contentOk_of_seq env covRef ui hhc]
      · intro i
        simp only [contentPhase, hoe, Bool.false_eq_true, if_false, hhc]
        rw [seqLoop_failed_mem]
        simp only [contentOk_of_seq env covRef ui hhc]
      · simp only [contentPhase, hoe, Bool.false_eq_true, if_false, hhc]
        exact (seqLoop_ts_fields env tid total covRef ui others _ _ _ _).1
      · simp only [contentPhase, hoe, Bool.false_eq_true, if_false, hhc]
        exact (seqLoop_ts_fields env tid total covRef ui others _ _ _ _).2.2
      · simp only [contentPhase, hoe, Bool.false_eq_true, if_false, hhc]
        rw [seqLoop_gened_length]
        congr 1
        apply List.countP_congr
        intro p _
        rw [contentOk_of_seq env covRef ui hhc p]
      · simp only [contentPhase, hoe, Bool.false_eq_true, if_false, hhc]
        rw [seqLoop_failedPages]
        congr 1
        exact List.filter_congr (fun p _ => by
          rw [contentOk_of_seq env covRef ui hhc p])
      · intro e he
        simp only [contentPhase, hoe, Bool.false_eq_true, if_false, hhc,
          List.mem_cons] at he
        rcases he with rfl | he
        · rfl
        · exact seqLoop_events_noFinish env tid total covRef ui others
            _ _ _ _ e he

theorem coverOk_eq (env : GenEnv) (ui : List String) (pages : List Page) :
    coverOk env ui pages = coverOkOf env ui (coverPage pages) := by
  unfold coverOk coverOkOf
  rfl

/-- Summary of the cover phase. -/
theorem coverPhase_spec (env : GenEnv) (tid : String) (total : Nat)
    (ui : List String) (cp? : Option Page) (ts0 : TaskState)
    (files0 : List (String × String)) (h0gen : ts0.generated = [])
    (h0fail : ts0.failed = [])
    (hidx : ∀ cp, cp? = some cp → cp.index = 0) :
    (∀ i, i ∈ mapKeys (coverPhase env tid total ui cp? ts0 files0).1.ts.generated ↔
       (cp?.isSome = true ∧ coverOkOf env ui cp? = true ∧ i = 0)) ∧
    (∀ i, i ∈ mapKeys (coverPhase env tid total ui cp? ts0 files0).1.ts.failed ↔
       (cp?.isSome = true ∧ coverOkOf env ui cp? = false ∧ i = 0)) ∧
    (coverPhase env tid total ui cp? ts0 files0).1.ts.total = ts0.total ∧
    (coverPhase env tid total ui cp? ts0 files0).1.ts.full_outline =
      ts0.full_outline ∧
    (coverPhase env tid total ui cp? ts0 files0).1.gened.length =
      (if coverOkOf env ui cp? = true then 1 else 0) ∧
    (coverPhase env tid total ui cp? ts0 files0).1.failedPages.map Page.index =
      (if cp?.isSome = true ∧ coverOkOf env ui cp? = false then [0] else []) ∧
    (coverPhase env tid total ui cp? ts0 files0).1.failedPages.length =
      (if cp?.isSome = true ∧ coverOkOf env ui cp? = false then 1 else 0) ∧
    (∀ e, e ∈ (coverPhase env tid total ui cp? ts0 files0).1.events →
      isFinish e = false) := by
  cases cp? with
  | none =>
    refine ⟨?_, ?_, rfl, rfl, ?_, ?_, ?_, ?_⟩ <;>
      simp [coverPhase, coverOkOf, h0gen, h0fail, isFinish, mapKeys]
  | some cp =>
    have hcpidx : cp.index = 0 := hidx cp rfl
    by_cases hcs : (generate_single_image env cp none ui 0).1.success = true
    · have hok : coverOkOf env ui (some cp) = true := by
        simpa [coverOkOf, pageOk] using hcs
      refine ⟨?_, ?_, ?_, ?_, ?_, ?_, ?_, ?_⟩
      · intro i
        simp [coverPhase, hcs, h0gen, hok, mapSet, mapKeys, eq_comm]
      · intro i
        simp [coverPhase, hcs, h0fail, hok, mapKeys]
      · simp [coverPhase, hcs]
      · simp [coverPhase, hcs]
      · simp [coverPhase, hcs, hok]
      · simp [coverPhase, hcs, hok]
      · simp [coverPhase, hcs, hok]
      · intro e he
        simp only [coverPhase, hcs, if_true, List.mem_cons] at he
        rcases he with rfl | rfl | he
        · rfl
        · rfl
        · simp at he
    · rw [Bool.not_eq_true] at hcs
      have hko : coverOkOf env ui (some cp) = false := by
        simpa [coverOkOf, pageOk] using hcs
      refine ⟨?_, ?_, ?_, ?_, ?_, ?_, ?_, ?_⟩
      · intro i
        simp [coverPhase, hcs, h0gen, hko, mapKeys]
      · intro i
        simp [coverPhase, hcs, h0fail, hko, mapSet, mapKeys, eq_comm]
      · simp [coverPhase, hcs]
      · simp [coverPhase, hcs]
      · simp [coverPhase, hcs, hko]
      · simp [coverPhase, hcs, hko, hcpidx]
      · simp [coverPhase, hcs, hko]
      · intro e he
        simp only [coverPhase, hcs, Bool.false_eq_true, if_false,
          List.mem_cons] at he
        rcases he with rfl | rfl | he
        · rfl
        · rfl
        · simp at he

/-- Master summary of one `generate_images` run: the final task state, the
shape of the event stream, and the finish-event payload, all expressed
through the per-page outcome predicates. -/
theorem generate_images_run (env : GenEnv) (pages : List Page)
    (tid outline : String) (uimgs : List String) (order : List Page)
    (st : ServiceState) (hperm : order.Perm (otherPages pages)) :
    ∃ (ref : Option String) (L : List Page) (ts : TaskState)
      (evs0 : List Event) (g2 : List String) (f2 : List Page),
      L.Perm (otherPages pages) ∧
      (generate_images env pages tid outline uimgs order st).2.taskState =
        some ts ∧
      ts.total = pages.length ∧
      ts.full_outline = outline ∧
      (∀ i, i ∈ mapKeys ts.generated ↔
        ((coverPage pages).isSome = true ∧
          coverOk env (compressUserImages env uimgs) pages = true ∧ i = 0) ∨
        ∃ p, p ∈ L ∧ p.index = i ∧
          contentOk env ref (compressUserImages env uimgs) p = true) ∧
      (∀ i, i ∈ mapKeys ts.failed ↔
        ((coverPage pages).isSome = true ∧
          coverOk env (compressUserImages env uimgs) pages = false ∧ i = 0) ∨
        ∃ p, p ∈ L ∧ p.index = i ∧
          contentOk env ref (compressUserImages env uimgs) p = false) ∧
      (generate_images env pages tid outline uimgs order st).1 =
        evs0 ++ [Event.finish f2.isEmpty tid g2 pages.length g2.length
          f2.length (f2.map Page.index)] ∧
      (∀ e, e ∈ evs0 → isFinish e = false) ∧
      g2.length =
        (if coverOk env (compressUserImages env uimgs) pages = true
         then 1 else 0) +
        L.countP (contentOk env ref (compressUserImages env uimgs)) ∧
      f2.map Page.index =
        (if (coverPage pages).isSome = true ∧
            coverOk env (compressUserImages env uimgs) pages = false
         then [0] else []) ++
        (L.filter (fun p =>
          !(contentOk env ref (compressUserImages env uimgs) p))).map
            Page.index ∧
      f2.length =
        (if (coverPage pages).isSome = true ∧
            coverOk env (compressUserImages env uimgs) pages = false
         then 1 else 0) +
        (L.filter (fun p =>
          !(contentOk env ref (compressUserImages env uimgs) p))).length := by
  obtain ⟨ref, L, hLperm, hgen, hfail, htot, houtl, hglen, hfp, hnf⟩ :=
    contentPhase_spec env tid pages.length (compressUserImages env uimgs)
      (otherPages pages) order
      (coverPhase env tid pages.length (compressUserImages env uimgs)
        (coverPage pages) (freshTaskState pages.length outline) st.files).1
      (coverPhase env tid pages.length (compressUserImages env uimgs)
        (coverPage pages) (freshTaskState pages.length outline) st.files).2
      hperm
  obtain ⟨cgen, cfail, ctot, coutl, cglen, cfpmap, cfplen, cnf⟩ :=
    coverPhase_spec env tid pages.length (compressUserImages env uimgs)
      (coverPage pages) (freshTaskState pages.length outline) st.files rfl rfl
      (fun cp h => coverPage_index h)
  refine ⟨ref, L,
    (contentPhase env tid pages.length (compressUserImages env uimgs)
      (otherPages pages) order
      ((coverPhase env tid pages.length (compressUserImages env uimgs)
        (coverPage pages) (freshTaskState pages.length outline) st.files).1,
       (coverPhase env tid pages.length (compressUserImages env uimgs)
        (coverPage pages) (freshTaskState pages.length outline) st.files).2)).ts,
    (coverPhase env tid pages.length (compressUserImages env uimgs)
      (coverPage pages) (freshTaskState pages.length outline) st.files).1.events ++
    (contentPhase env tid pages.length (compressUserImages env uimgs)
      (otherPages pages) order
      ((coverPhase env tid pages.length (compressUserImages env uimgs)
        (coverPage pages) (freshTaskState pages.length outline) st.files).1,
       (coverPhase env tid pages.length (compressUserImages env uimgs)
        (coverPage pages) (freshTaskState pages.length outline) st.files).2)).events,
    (contentPhase env tid pages.length (compressUserImages env uimgs)
      (otherPages pages) order
      ((coverPhase env tid pages.length (compressUserImages env uimgs)
        (coverPage pages) (freshTaskState pages.length outline) st.files).1,
       (coverPhase env tid pages.length (compressUserImages env uimgs)
        (coverPage pages) (freshTaskState pages.length outline) st.files).2)).gened,
    (contentPhase env tid pages.length (compressUserImages env uimgs)
      (otherPages pages) order
      ((coverPhase env tid pages.length (compressUserImages env uimgs)
        (coverPage pages) (freshTaskState pages.length outline) st.files).1,
       (coverPhase env tid pages.length (compressUserImages env uimgs)
        (coverPage pages) (freshTaskState pages.length outline) st.files).2)).failedPages,
    hLperm, rfl, ?_, ?_, ?_, ?_, ?_, ?_, ?_, ?_, ?_⟩
  · rw [htot, ctot]; rfl
  · rw [houtl, coutl]; rfl
  · intro i
    rw [hgen i, cgen i, coverOk_eq]
  · intro i
    rw [hfail i, cfail i, coverOk_eq]
  · show (coverPhase env tid pages.length (compressUserImages env uimgs)
      (coverPage pages) (freshTaskState pages.length outline) st.files).1.events ++
      (contentPhase env tid pages.length (compressUserImages env uimgs)
        (otherPages pages) order _).events ++ _ = _
    rw [List.append_assoc]
  · intro e he
    rcases List.mem_append.mp he with hc | hc
    · exact cnf e hc
    · exact hnf e hc
  · rw [hglen, cglen, coverOk_eq]
  · rw [hfp, List.map_append, cfpmap, coverOk_eq]
  · rw [hfp, List.length_append, cfplen, coverOk_eq]

/-- After a run, the union of the two key sets is exactly the set of input
page indices. -/
theorem generate_images_union (env : GenEnv) (pages : List Page)
    (tid outline : String) (uimgs : List String) (order : List Page)
    (st : ServiceState) (hperm : order.Perm (otherPages pages)) :
    ∃ ts, (generate_images env pages tid outline uimgs order st).2.taskState =
        some ts ∧
      ts.total = pages.length ∧ ts.full_outline = outline ∧
      (∀ i, (i ∈ mapKeys ts.generated ∨ i ∈ mapKeys ts.failed) ↔
        ∃ p, p ∈ pages ∧ p.index = i) := by
  obtain ⟨ref, L, ts, evs0, g2, f2, hLperm, hts, htot, houtl, hgen, hfail,
    -, -, -, -, -⟩ := generate_images_run env pages tid outline uimgs order st hperm
  refine ⟨ts, hts, htot, houtl, ?_⟩
  intro i
  rw [hgen i, hfail i]
  constructor
  · rintro ((⟨hsome, hok, rfl⟩ | ⟨p, hpL, rfl, hp⟩) |
            (⟨hsome, hko, rfl⟩ | ⟨p, hpL, rfl, hp⟩))
    · exact coverPage_isSome_iff.mp hsome
    · exact ⟨p, List.mem_of_mem_filter ((hLperm.mem_iff).mp hpL), rfl⟩
    · exact coverPage_isSome_iff.mp hsome
    · exact ⟨p, List.mem_of_mem_filter ((hLperm.mem_iff).mp hpL), rfl⟩
  · rintro ⟨p, hp, rfl⟩
    by_cases h0 : p.index = 0
    · have hsome : (coverPage pages).isSome = true :=
        coverPage_isSome_iff.mpr ⟨p, hp, h0⟩
      cases hco : coverOk env (compressUserImages env uimgs) pages
      · exact Or.inr (Or.inl ⟨hsome, rfl, h0⟩)
      · exact Or.inl (Or.inl ⟨hsome, rfl, h0⟩)
    · have hpo : p ∈ otherPages pages := by
        unfold otherPages
        refine List.mem_filter.mpr ⟨hp, ?_⟩
        simpa using h0
      have hpL : p ∈ L := (hLperm.mem_iff).mpr hpo
      cases hc : contentOk env ref (compressUserImages env uimgs) p
      · exact Or.inr (Or.inr ⟨p, hpL, rfl, hc⟩)
      · exact Or.inl (Or.inr ⟨p, hpL, rfl, hc⟩)

/-- After a run with pairwise-distinct input indices, the two key sets are
disjoint. -/
theorem generate_images_disjoint (env : GenEnv) (pages : List Page)
    (tid outline : String) (uimgs : List String) (order : List Page)
    (st : ServiceState)
    (hdist : pages.Pairwise (fun a b => a.index ≠ b.index))
    (hperm : order.Perm (otherPages pages)) :
    ∃ ts, (generate_images env pages tid outline uimgs order st).2.taskState =
        some ts ∧ DisjointMaps ts := by
  obtain ⟨ref, L, ts, evs0, g2, f2, hLperm, hts, htot, houtl, hgen, hfail,
    -, -, -, -, -⟩ := generate_images_run env pages tid outline uimgs order st hperm
  refine ⟨ts, hts, ?_⟩
  have hLpw : L.Pairwise (fun a b : Page => a.index ≠ b.index) :=
    (List.Perm.pairwise_iff
      (fun {x y} (h : x.index ≠ y.index) => Ne.symm h) hLperm).mpr
      (List.Pairwise.sublist (List.filter_sublist pages) hdist)
  intro i hig hif
  rw [hgen i] at hig
  rw [hfail i] at hif
  rcases hig with ⟨hsome, hok, rfl⟩ | ⟨p, hpL, hpi, hp⟩
  · rcases hif with ⟨-, hko, -⟩ | ⟨q, hqL, hqi, hq⟩
    · exact Bool.noConfusion (hok.symm.trans hko)
    · have hqo := (hLperm.mem_iff).mp hqL
      have hqne : q.index ≠ 0 := by simpa using List.of_mem_filter hqo
      exact hqne hqi
  · rcases hif with ⟨hsome, hko, hi0⟩ | ⟨q, hqL, hqi, hq⟩
    · have hpo := (hLperm.mem_iff).mp hpL
      have hpne : p.index ≠ 0 := by simpa using List.of_mem_filter hpo
      exact hpne (hpi.trans hi0)
    · by_cases hpq : p = q
      · subst hpq
        rw [hp] at hq
        exact Bool.noConfusion hq
      · exact List.Pairwise.forall indexNe_symm hLpw hpL hqL hpq
          (hpi.trans hqi.symm)

/-! ## Claim C1 -/

/-- C1: for every `generate_images` call on pages with pairwise-distinct
indices, once the stream is exhausted the key set of the task's `generated`
map united with the key set of `failed` equals the set of input page
indices, and the two key sets are disjoint. -/
theorem claim_C1_partition (env : GenEnv) (pages : List Page)
    (tid outline : String) (uimgs : List String) (order : List Page)
    (st : ServiceState)
    (hdist : pages.Pairwise (fun a b => a.index ≠ b.index))
    (hperm : order.Perm (otherPages pages)) :
    ∃ ts, (generate_images env pages tid outline uimgs order st).2.taskState =
        some ts ∧
      (∀ i, (i ∈ mapKeys ts.generated ∨ i ∈ mapKeys ts.failed) ↔
        ∃ p, p ∈ pages ∧ p.index = i) ∧
      (∀ i, ¬(i ∈ mapKeys ts.generated ∧ i ∈ mapKeys ts.failed)) := by
  obtain ⟨ts, hts, -, -, huni⟩ :=
    generate_images_union env pages tid outline uimgs order st hperm
  obtain ⟨ts', hts', hdisj⟩ :=
    generate_images_disjoint env pages tid outline uimgs order st hdist hperm
  have hee : ts' = ts := Option.some.inj (hts'.symm.trans hts)
  subst hee
  exact ⟨ts', hts, huni, fun i hi => hdisj i hi.1 hi.2⟩

theorem claim_C1_partition_witness :
    ∃ ts, (generate_images envFailPage1 pages3 "t" "" [] (otherPages pages3)
        stEmpty).2.taskState = some ts ∧
      (∀ i, (i ∈ mapKeys ts.generated ∨ i ∈ mapKeys ts.failed) ↔
        ∃ p, p ∈ pages3 ∧ p.index = i) ∧
      (∀ i, ¬(i ∈ mapKeys ts.generated ∧ i ∈ mapKeys ts.failed)) :=
  claim_C1_partition envFailPage1 pages3 "t" "" [] (otherPages pages3)
    stEmpty (by decide) (List.Perm.refl _)

/-! ## Claim C4 -/

theorem StateOK_iff (st : ServiceState) :
    StateOK st ↔ ∀ ts, st.taskState = some ts → DisjointMaps ts := by
  cases hst : st.taskState with
  | none => simp [StateOK, hst]
  | some ts => simp [StateOK, hst]

theorem retry_single_image_StateOK (env : GenEnv) (tid : String) (page : Page)
    (useRef : Bool) (st : ServiceState) (h : StateOK st) :
    StateOK (retry_single_image env tid page useRef st).2 := by
  rw [StateOK_iff] at h ⊢
  intro ts' hts'
  by_cases hs : (generate_single_image env page (retryReference useRef st)
      [] 0).1.success = true
  · simp only [retry_single_image, hs, if_true] at hts'
    cases hst : st.taskState with
    | none => rw [hst] at hts'; simp at hts'
    | some ts =>
      rw [hst] at hts'
      simp only [Option.some.injEq] at hts'
      subst hts'
      intro i hig hif
      rw [mem_mapKeys_mapErase] at hif
      rw [mem_mapKeys_mapSet] at hig
      rcases hig with rfl | hig
      · exact hif.2 rfl
      · exact h ts hst i hig hif.1
  · rw [Bool.not_eq_true] at hs
    simp only [retry_single_image, hs, Bool.false_eq_true, if_false] at hts'
    exact h ts' hts'

theorem retryFailedLoop_StateOK (env : GenEnv) (tid : String)
    (reference : Option String) :
    ∀ (l : List Page) (ts? : Option TaskState) (sc fc : Nat)
      (files : List (String × String)),
      (∀ ts, ts? = some ts → DisjointMaps ts) →
      ∀ ts', (retryFailedLoop env tid reference l ts? sc fc files).2.1 =
          some ts' →
        DisjointMaps ts' := by
  intro l
  induction l with
  | nil =>
    intro ts? sc fc files h ts' hts'
    simp only [retryFailedLoop] at hts'
    exact h ts' hts'
  | cons p rest ih =>
    intro ts? sc fc files h ts' hts'
    cases hc : env.crash p.index with
    | some msg =>
      simp only [retryFailedLoop, hc] at hts'
      exact ih ts? sc (fc + 1) files h ts' hts'
    | none =>
      by_cases hs : (generate_single_image env p reference [] 0).1.success = true
      · simp only [retryFailedLoop, hc, hs, if_true] at hts'
        refine ih _ _ _ _ ?_ ts' hts'
        intro ts2 hts2
        cases hst : ts? with
        | none => rw [hst] at hts2; simp at hts2
        | some ts =>
          rw [hst] at hts2
          simp only [Option.some.injEq] at hts2
          subst hts2
          intro i hig hif
          rw [mem_mapKeys_mapErase] at hif
          rw [mem_mapKeys_mapSet] at hig
          rcases hig with rfl | hig
          · exact hif.2 rfl
          · exact h ts hst i hig hif.1
      · rw [Bool.not_eq_true] at hs
        simp only [retryFailedLoop, hc, hs, Bool.false_eq_true, if_false]
          at hts'
        exact ih ts? sc (fc + 1) _ h ts' hts'

theorem retry_failed_images_StateOK (env : GenEnv) (tid : String)
    (pages order : List Page) (st : ServiceState) (h : StateOK st) :
    StateOK (retry_failed_images env tid pages order st).2 := by
  rw [StateOK_iff] at h ⊢
  intro ts' hts'
  simp only [retry_failed_images] at hts'
  exact retryFailedLoop_StateOK env tid (retryFailedReference st) order
    st.taskState 0 0 st.files h ts' hts'

theorem cleanup_task_StateOK (tid : String) (st : ServiceState)
    (_h : StateOK st) : StateOK (cleanup_task tid st) := by
  simp [cleanup_task, StateOK]

theorem retry_single_image_removes (env : GenEnv) (tid : String) (page : Page)
    (useRef : Bool) (st : ServiceState) (ts : TaskState)
    (hts : st.taskState = some ts)
    (hs : (generate_single_image env page (retryReference useRef st)
      [] 0).1.success = true) :
    ∀ ts', (retry_single_image env tid page useRef st).2.taskState =
        some ts' →
      page.index ∉ mapKeys ts'.failed := by
  intro ts' hts'
  simp only [retry_single_image, hs, if_true, hts] at hts'
  simp only [Option.some.injEq] at hts'
  subst hts'
  intro hmem
  rw [mem_mapKeys_mapErase, generate_single_image_index] at hmem
  exact hmem.2 rfl

/-- C4: the disjointness invariant — no page index is in both `generated`
and `failed` — is preserved by every `ImageService` operation
(`generate_images` run to completion under pairwise-distinct indices,
`retry_single_image`, `retry_failed_images`, `cleanup_task`), and a
successful retry of an index removes it from `failed`. -/
theorem claim_C4_invariant :
    (∀ (env : GenEnv) (pages : List Page) (tid outline : String)
       (uimgs : List String) (order : List Page) (st : ServiceState),
       pages.Pairwise (fun a b => a.index ≠ b.index) →
       order.Perm (otherPages pages) →
       StateOK (generate_images env pages tid outline uimgs order st).2) ∧
    (∀ (env : GenEnv) (tid : String) (page : Page) (useRef : Bool)
       (st : ServiceState), StateOK st →
       StateOK (retry_single_image env tid page useRef st).2) ∧
    (∀ (env : GenEnv) (tid : String) (pages order : List Page)
       (st : ServiceState), StateOK st →
       StateOK (retry_failed_images env tid pages order st).2) ∧
    (∀ (tid : String) (st : ServiceState), StateOK st →
       StateOK (cleanup_task tid st)) ∧
    (∀ (env : GenEnv) (tid : String) (page : Page) (useRef : Bool)
       (st : ServiceState) (ts : TaskState), st.taskState = some ts →
       (generate_single_image env page (retryReference useRef st)
         [] 0).1.success = true →
       ∀ ts', (retry_single_image env tid page useRef st).2.taskState =
           some ts' →
         page.index ∉ mapKeys ts'.failed) := by
  refine ⟨?_, retry_single_image_StateOK, retry_failed_images_StateOK,
    cleanup_task_StateOK,
    fun env tid page useRef st ts hts =>
      retry_single_image_removes env tid page useRef st ts hts⟩
  intro env pages tid outline uimgs order st hdist hperm
  rw [StateOK_iff]
  intro ts hts
  obtain ⟨ts', hts', hdisj⟩ :=
    generate_images_disjoint env pages tid outline uimgs order st hdist hperm
  have hee : ts = ts' := Option.some.inj (hts.symm.trans hts')
  subst hee
  exact hdisj

theorem claim_C4_invariant_witness :
    StateOK (generate_images envFailPage1 pages3 "t" "" []
      (otherPages pages3) stEmpty).2 ∧
    StateOK (retry_single_image envAllOk "t" ⟨1, "p"⟩ true stWithTask).2 ∧
    StateOK (retry_failed_images envAllOk "t" [⟨1, "p"⟩] [⟨1, "p"⟩]
      stWithTask).2 ∧
    StateOK (cleanup_task "t" stWithTask) ∧
    (∀ ts', (retry_single_image envAllOk "t" ⟨1, "p"⟩ true
        stWithTask).2.taskState = some ts' →
      (⟨1, "p"⟩ : Page).index ∉ mapKeys ts'.failed) := by
  have hok : StateOK stWithTask := by
    simp only [StateOK, stWithTask]
    intro i hi
    simp [mapKeys] at hi
  exact ⟨claim_C4_invariant.1 envFailPage1 pages3 "t" "" []
      (otherPages pages3) stEmpty (by decide) (List.Perm.refl _),
    claim_C4_invariant.2.1 envAllOk "t" ⟨1, "p"⟩ true stWithTask hok,
    claim_C4_invariant.2.2.1 envAllOk "t" [⟨1, "p"⟩] [⟨1, "p"⟩] stWithTask hok,
    claim_C4_invariant.2.2.2.1 "t" stWithTask hok,
    claim_C4_invariant.2.2.2.2 envAllOk "t" ⟨1, "p"⟩ true stWithTask
      ⟨3, [], [], none, ""⟩ rfl (by decide)⟩

/-! ## Claim C2 -/

/-- C2 (amended): `retry_single_image` on a task present in memory updates
the maps on success exactly as the main pipeline does (index added to
`generated`, removed from `failed`), leaves the task state unchanged on
failure (the failure is only reported in the returned result, not recorded
in `failed`), and falls back to reading the persisted cover file `0.png`
from disk as the reference image when `use_reference` is true and no truthy
cover bytes are held in memory. -/
theorem claim_C2_retry_single (env : GenEnv) (tid : String) (page : Page)
    (useRef : Bool) (st : ServiceState) :
    RetrySingleSpec env tid page useRef st := by
  constructor
  · intro ts hts
    constructor
    · intro hs
      simp only [retry_single_image, hs, if_true, hts]
      exact ⟨by simp [generate_single_image_index],
        by simp [generate_single_image_index]⟩
    · intro hs
      simp only [retry_single_image, hs, Bool.false_eq_true, if_false, hts]
      exact ⟨trivial, by simp [generate_single_image_index]⟩
  · intro hu hcov b hb
    subst hu
    simp only [retryReference, if_true, hcov, Bool.not_false, Bool.and_self,
      hb]

theorem claim_C2_retry_single_witness :
    RetrySingleSpec envAlwaysFail "t" ⟨1, "p"⟩ true stWithTask :=
  claim_C2_retry_single envAlwaysFail "t" ⟨1, "p"⟩ true stWithTask

/-- Counterexample to C2 as stated: with a task present in memory whose
`failed` map is empty and a generation that fails every attempt,
`retry_single_image` reports the failure in its return value but leaves
the task state untouched — the page's index is *not* recorded in `failed`
with the error message. -/
theorem claim_C2_counterexample :
    (retry_single_image envAlwaysFail "t" ⟨1, "p"⟩ true stWithTask).1 =
      RetryOutcome.err 1 "boom" true ∧
    (retry_single_image envAlwaysFail "t" ⟨1, "p"⟩ true
      stWithTask).2.taskState = some ⟨3, [], [], none, ""⟩ ∧
    ¬((1 : Nat) ∈ mapKeys
      (((retry_single_image envAlwaysFail "t" ⟨1, "p"⟩ true
        stWithTask).2.taskState.getD (freshTaskState 0 "")).failed)) := by
  refine ⟨?_, ?_, ?_⟩ <;> decide

/-! ## Claim C8 -/

/-- C8: `_generate_single_image` terminates with a bounded budget: starting
from `retry_count = 0` it sleeps a fixed 2 seconds between consecutive
attempts and performs at most `AUTO_RETRY_COUNT` retries (hence at most
`1 + AUTO_RETRY_COUNT = 4` generation attempts), and it returns a failure
result — carrying the final attempt's error message — only after every
attempt in the budget has failed. -/
theorem claim_C8_bounded_retry (env : GenEnv) (p : Page)
    (reference : Option String) (ui : List String) :
    (∃ k, k ≤ AUTO_RETRY_COUNT ∧
      (generate_single_image env p reference ui 0).2.2 = List.replicate k 2) ∧
    ((generate_single_image env p reference ui 0).1.success = false →
      (generate_single_image env p reference ui 0).2.2 =
        List.replicate AUTO_RETRY_COUNT 2 ∧
      (∀ i, i ≤ AUTO_RETRY_COUNT →
        ∃ e, attemptResult env p (effectiveReference reference ui) i =
          Except.error e) ∧
      attemptResult env p (effectiveReference reference ui) AUTO_RETRY_COUNT =
        Except.error (generate_single_image env p reference ui 0).1.error) := by
  have hfuel : AUTO_RETRY_COUNT - 0 = AUTO_RETRY_COUNT := Nat.sub_zero _
  constructor
  · obtain ⟨k, hk, hrep⟩ := genSingleGo_sleeps env p
      (effectiveReference reference ui) (AUTO_RETRY_COUNT - 0) 0
    exact ⟨k, hfuel ▸ hk, hrep⟩
  · intro hfail
    obtain ⟨hrep, hall, hlast⟩ := genSingleGo_fail env p
      (effectiveReference reference ui) (AUTO_RETRY_COUNT - 0) 0
      (by omega) hfail
    exact ⟨by rwa [hfuel] at hrep, fun i hi => hall i (Nat.zero_le i) hi,
      hlast⟩

theorem claim_C8_bounded_retry_witness :
    (generate_single_image envAlwaysFail ⟨1, "p"⟩ none [] 0).2.2 =
      List.replicate AUTO_RETRY_COUNT 2 ∧
    (∀ i, i ≤ AUTO_RETRY_COUNT →
      ∃ e, attemptResult envAlwaysFail ⟨1, "p"⟩
        (effectiveReference none []) i = Except.error e) ∧
    attemptResult envAlwaysFail ⟨1, "p"⟩ (effectiveReference none [])
        AUTO_RETRY_COUNT =
      Except.error (generate_single_image envAlwaysFail ⟨1, "p"⟩ none []
        0).1.error :=
  (claim_C8_bounded_retry envAlwaysFail ⟨1, "p"⟩ none []).2 (by decide)

/-! ## Claim C3 -/

/-- When every attempt fails, the retry loop of the adapter walks through
the whole budget, sleeping the rate-limit backoff (base 3 exponential plus
jitter) or the generic backoff (base 2 exponential) between attempts, and
finally re-raises the last attempt's exception. -/
theorem retryOnErrorGo_exhaust (f : Nat → Except String String)
    (jitter : Nat → ℚ) (es : Nat → String)
    (hf : ∀ i, i < MAX_RETRIES → f i = Except.error (es i)) :
    ∀ fuel attempt, attempt + fuel + 1 = MAX_RETRIES →
      retryOnErrorGo f jitter MAX_RETRIES attempt (fuel + 1) =
        (Except.error (es (MAX_RETRIES - 1)),
         (List.range' attempt fuel).map (fun i =>
           if isRateLimitError (es i) = true then (3 : ℚ) ^ i + jitter i
           else (2 : ℚ) ^ i)) := by
  intro fuel
  induction fuel with
  | zero =>
    intro attempt hatt
    have ha : attempt = MAX_RETRIES - 1 := by omega
    have hlt : attempt < MAX_RETRIES := by omega
    have hnotlt : ¬(attempt + 1 < MAX_RETRIES) := by omega
    subst ha
    simp [retryOnErrorGo, hf _ hlt, hnotlt]
  | succ fuel ih =>
    intro attempt hatt
    have hlt : attempt < MAX_RETRIES := by omega
    have hlt1 : attempt + 1 < MAX_RETRIES := by omega
    have ihh := ih (attempt + 1) (by omega)
    conv_lhs => rw [retryOnErrorGo]
    rw [hf _ hlt]
    simp only [ihh, List.range'_succ, List.map_cons]
    by_cases hrl : isRateLimitError (es attempt) = true
    · simp [hrl, hlt1]
    · rw [Bool.not_eq_true] at hrl
      simp [hrl, hlt1]

/-- C3 (amended): rate-limit failures are retried with exponential backoff
(base 3) plus jitter and other failures with base-2 exponential backoff,
within the fixed 5-attempt budget; when the budget is exhausted the
adapter re-raises the final attempt's underlying exception — the
descriptive terminal error naming quota/network/outage is not what is
surfaced. -/
theorem claim_C3_adapter_retry (f : Nat → Except String String)
    (jitter : Nat → ℚ) (es : Nat → String)
    (hf : ∀ i, i < MAX_RETRIES → f i = Except.error (es i)) :
    generate_image_retry f jitter =
      (Except.error (es 4),
       (List.range 4).map (fun i =>
         if isRateLimitError (es i) = true then (3 : ℚ) ^ i + jitter i
         else (2 : ℚ) ^ i)) := by
  have h := retryOnErrorGo_exhaust f jitter es hf 4 0 (by decide)
  rw [List.range_eq_range']
  exact h

theorem claim_C3_adapter_retry_witness :
    generate_image_retry f429 zeroJitter =
      (Except.error "HTTP 429 Too Many Requests", [1, 3, 9, 27]) := by
  rw [claim_C3_adapter_retry f429 zeroJitter
    (fun _ => "HTTP 429 Too Many Requests") (fun i _ => rfl)]
  have hrl : isRateLimitError "HTTP 429 Too Many Requests" = true := by decide
  have hr4 : List.range 4 = [0, 1, 2, 3] := rfl
  simp only [hrl, if_true, zeroJitter, hr4, List.map_cons, List.map_nil,
    Prod.mk.injEq]
  norm_num

/-- Counterexample to C3 as stated: exhausting the 5-attempt budget does
not surface the terminal error naming the likely causes (quota, network,
outage) — the loop re-raises the last underlying exception instead, and
the descriptive `raise` after the loop is unreachable. -/
theorem claim_C3_counterexample :
    (generate_image_retry f429 zeroJitter).1 =
      Except.error "HTTP 429 Too Many Requests" ∧
    (generate_image_retry f429 zeroJitter).1 ≠
      Except.error terminalRetryMessage := by
  have h1 : (generate_image_retry f429 zeroJitter).1 =
      Except.error "HTTP 429 Too Many Requests" := rfl
  refine ⟨h1, ?_⟩
  rw [h1]
  intro h
  exact absurd (Except.error.inj h) (by decide)

/-! ## Claim C6 -/

/-- C6: every `generate_images` run yields exactly one `finish` event, as
the final event of the stream; under pairwise-distinct input page indices
its payload satisfies completed + failed = total = number of input pages,
success holds exactly when the failed count is zero, and the
failed-indices list holds exactly the indices recorded in the task's
`failed` map. -/
theorem claim_C6_finish_event (env : GenEnv) (pages : List Page)
    (tid outline : String) (uimgs : List String) (order : List Page)
    (st : ServiceState)
    (hdist : pages.Pairwise (fun a b => a.index ≠ b.index))
    (hperm : order.Perm (otherPages pages)) :
    ∃ ts evs0 s imgs comp fl fidx,
      (generate_images env pages tid outline uimgs order st).2.taskState =
        some ts ∧
      (generate_images env pages tid outline uimgs order st).1 =
        evs0 ++ [Event.finish s tid imgs pages.length comp fl fidx] ∧
      (∀ e, e ∈ evs0 → isFinish e = false) ∧
      comp + fl = pages.length ∧
      (s = true ↔ fl = 0) ∧
      (∀ i, i ∈ fidx ↔ i ∈ mapKeys ts.failed) := by
  obtain ⟨ref, L, ts, evs0, g2, f2, hLperm, hts, htot, houtl, hgen, hfail,
    hevents, hnf, hglen, hfmap, hflen⟩ :=
    generate_images_run env pages tid outline uimgs order st hperm
  refine ⟨ts, evs0, f2.isEmpty, g2, g2.length, f2.length, f2.map Page.index,
    hts, hevents, hnf, ?_, ?_, ?_⟩
  · rw [hglen, hflen]
    have hcount : L.countP (contentOk env ref (compressUserImages env uimgs)) +
        (L.filter (fun p =>
          !(contentOk env ref (compressUserImages env uimgs) p))).length =
        L.length := by
      rw [List.countP_eq_length_filter]
      exact (List.length_eq_length_filter_add _).symm
    have hLlen : L.length = (otherPages pages).length := hLperm.length_eq
    have hsplit := pages_length_cover pages hdist
    by_cases hcov : coverOk env (compressUserImages env uimgs) pages = true
    · have hsome : (coverPage pages).isSome = true := by
        cases hcp : coverPage pages with
        | none => rw [coverOk_eq, hcp] at hcov; simp [coverOkOf] at hcov
        | some cp => simp
      rw [if_pos hcov, if_neg (by simp [hcov])]
      rw [if_pos hsome] at hsplit
      omega
    · rw [if_neg hcov]
      rw [Bool.not_eq_true] at hcov
      by_cases hsome : (coverPage pages).isSome = true
      · rw [if_pos ⟨hsome, hcov⟩]
        rw [if_pos hsome] at hsplit
        omega
      · rw [if_neg (fun hh => hsome hh.1)]
        rw [if_neg hsome] at hsplit
        omega
  · constructor
    · intro hs
      exact List.length_eq_zero.mpr (List.isEmpty_iff.mp hs)
    · intro hl
      exact List.isEmpty_iff.mpr (List.length_eq_zero.mp hl)
  · intro i
    rw [List.mem_map]
    constructor
    · rintro ⟨p, hpf, rfl⟩
      have hpf' := hpf
      rw [show f2 = f2 from rfl] at hpf'
      have hmap : p.index ∈ f2.map Page.index := List.mem_map.mpr ⟨p, hpf, rfl⟩
      rw [hfmap] at hmap
      rw [hfail p.index]
      rcases List.mem_append.mp hmap with hc | hc
      · by_cases hcond : (coverPage pages).isSome = true ∧
            coverOk env (compressUserImages env uimgs) pages = false
        · rw [if_pos hcond] at hc
          simp only [List.mem_singleton] at hc
          exact Or.inl ⟨hcond.1, hcond.2, hc⟩
        · rw [if_neg hcond] at hc
          simp at hc
      · rcases List.mem_map.mp hc with ⟨q, hqf, hqi⟩
        rcases List.mem_filter.mp hqf with ⟨hqL, hqpred⟩
        exact Or.inr ⟨q, hqL, hqi, by simpa using hqpred⟩
    · intro hi
      rw [hfail i] at hi
      have : i ∈ f2.map Page.index := by
        rw [hfmap]
        rcases hi with ⟨hsome, hko, rfl⟩ | ⟨p, hpL, rfl, hp⟩
        · refine List.mem_append.mpr (Or.inl ?_)
          rw [if_pos ⟨hsome, hko⟩]
          simp
        · refine List.mem_append.mpr (Or.inr ?_)
          exact List.mem_map.mpr ⟨p,
            List.mem_filter.mpr ⟨hpL, by simpa using hp⟩, rfl⟩
      exact List.mem_map.mp this

theorem claim_C6_finish_event_witness :
    ∃ ts evs0 s imgs comp fl fidx,
      (generate_images envFailPage1 pages3 "t" "" [] (otherPages pages3)
        stEmpty).2.taskState = some ts ∧
      (generate_images envFailPage1 pages3 "t" "" [] (otherPages pages3)
        stEmpty).1 =
        evs0 ++ [Event.finish s "t" imgs pages3.length comp fl fidx] ∧
      (∀ e, e ∈ evs0 → isFinish e = false) ∧
      comp + fl = pages3.length ∧
      (s = true ↔ fl = 0) ∧
      (∀ i, i ∈ fidx ↔ i ∈ mapKeys ts.failed) :=
  claim_C6_finish_event envFailPage1 pages3 "t" "" [] (otherPages pages3)
    stEmpty (by decide) (List.Perm.refl _)

/-! ## Claim C5 -/

theorem coverPhase_events_contentTag (env : GenEnv) (tid : String)
    (total : Nat) (ui : List String) (cp? : Option Page) (ts0 : TaskState)
    (files0 : List (String × String)) :
    (coverPhase env tid total ui cp? ts0 files0).1.events.filterMap
      contentTag = [] := by
  cases cp? with
  | none => simp [coverPhase]
  | some cp =>
    by_cases hcs : (generate_single_image env cp none ui 0).1.success = true
    · simp [coverPhase, hcs, contentTag]
    · rw [Bool.not_eq_true] at hcs
      simp [coverPhase, hcs, contentTag]

theorem filterMap_progressGenerating (c total : Nat) :
    ∀ l : List Page,
      (l.map (fun p =>
        Event.progressGenerating p.index c total)).filterMap contentTag =
      l.map (fun p => ((true : Bool), p.index)) := by
  intro l
  induction l with
  | nil => simp
  | cons p rest ih => simp [contentTag, ih]

/-- C5: in high-concurrency mode every `generating` progress event for a
content page is emitted before any content-page `complete`/`error` event;
the `generating` events appear in input page order; and the
`complete`/`error` events appear in worker completion order — for every
possible completion order.  This is captured by the content-tagged
projection of the event stream: all `(true, index)` tags (the `generating`
events, in input order) precede all `(false, index)` tags (the completion
events, in completion order). -/
theorem claim_C5_concurrent_events (env : GenEnv) (pages : List Page)
    (tid outline : String) (uimgs : List String) (order : List Page)
    (st : ServiceState) (hhc : env.high_concurrency = true)
    (hperm : order.Perm (otherPages pages)) :
    (generate_images env pages tid outline uimgs order st).1.filterMap
        contentTag =
      (otherPages pages).map (fun p => ((true : Bool), p.index)) ++
      order.map (fun p => ((false : Bool), p.index)) := by
  have hcover := coverPhase_events_contentTag env tid pages.length
    (compressUserImages env uimgs) (coverPage pages)
    (freshTaskState pages.length outline) st.files
  by_cases hoe : (otherPages pages).isEmpty = true
  · have hnil : otherPages pages = [] := List.isEmpty_iff.mp hoe
    have hord : order = [] := by
      rw [hnil] at hperm
      exact hperm.eq_nil
    simp only [generate_images, contentPhase, hoe, if_true,
      List.filterMap_append, hcover, hnil, hord, List.map_nil,
      List.append_nil, List.nil_append]
    simp [contentTag]
  · simp only [generate_images, contentPhase, hoe, Bool.false_eq_true,
      if_false, hhc, if_true, List.filterMap_append, hcover,
      List.nil_append, List.filterMap_cons]
    simp only [contentTag, List.filterMap_append,
      filterMap_progressGenerating,
      concLoop_events_tags env tid pages.length]
    simp [contentTag]

theorem claim_C5_concurrent_events_witness :
    (generate_images envAllOkConc pages3 "t" "" []
        ([⟨2, "p2"⟩, ⟨1, "p1"⟩] : List Page) stEmpty).1.filterMap contentTag =
      (otherPages pages3).map (fun p => ((true : Bool), p.index)) ++
      ([⟨2, "p2"⟩, ⟨1, "p1"⟩] : List Page).map
        (fun p => ((false : Bool), p.index)) :=
  claim_C5_concurrent_events envAllOkConc pages3 "t" "" []
    ([⟨2, "p2"⟩, ⟨1, "p1"⟩] : List Page) stEmpty rfl (by decide)

/-! ## Claim C7 -/

theorem coverPhase_events_completionTag (env : GenEnv) (tid : String)
    (total : Nat) (ui : List String) (cp? : Option Page) (ts0 : TaskState)
    (files0 : List (String × String)) :
    (coverPhase env tid total ui cp? ts0 files0).1.events.filterMap
        completionTag =
      (match cp? with
       | some _ => [(Phase.cover, 0)]
       | none => []) := by
  cases cp? with
  | none => simp [coverPhase]
  | some cp =>
    by_cases hcs : (generate_single_image env cp none ui 0).1.success = true
    · simp [coverPhase, hcs, completionTag]
    · rw [Bool.not_eq_true] at hcs
      simp [coverPhase, hcs, completionTag]

/-- C7: in sequential mode the three-page all-success scenario yields
exactly the expected event sequence — cover progress, cover complete,
batch start, then generating/complete pairs for pages 1 and 2 in input
order, then a successful finish; and in general, in sequential mode the
`complete`/`error` events appear in input page order, with the cover's
completion event first and separate (tagged with the cover phase). -/
theorem claim_C7_sequential_events :
    ((generate_images envAllOk pages3 "t" "" [] (otherPages pages3)
        stEmpty).1 =
      [Event.progressGeneratingCover 0 "正在生成封面..." 0 3,
       Event.complete 0 "/api/images/t/0.png" Phase.cover,
       Event.progressBatchStart "开始顺序生成 2 页内容..." 1 3,
       Event.progressGenerating 1 2 3,
       Event.complete 1 "/api/images/t/1.png" Phase.content,
       Event.progressGenerating 2 3 3,
       Event.complete 2 "/api/images/t/2.png" Phase.content,
       Event.finish true "t" ["0.png", "1.png", "2.png"] 3 3 0 []]) ∧
    (∀ (env : GenEnv) (pages : List Page) (tid outline : String)
       (uimgs : List String) (order : List Page) (st : ServiceState),
       env.high_concurrency = false →
       (generate_images env pages tid outline uimgs order st).1.filterMap
           completionTag =
         (match coverPage pages with
          | some _ => [(Phase.cover, 0)]
          | none => []) ++
         (otherPages pages).map (fun p => (Phase.content, p.index))) := by
  constructor
  · rfl
  · intro env pages tid outline uimgs order st hhc
    have hcover := coverPhase_events_completionTag env tid pages.length
      (compressUserImages env uimgs) (coverPage pages)
      (freshTaskState pages.length outline) st.files
    by_cases hoe : (otherPages pages).isEmpty = true
    · have hnil : otherPages pages = [] := List.isEmpty_iff.mp hoe
      simp only [generate_images, contentPhase, hoe, if_true,
        List.filterMap_append, hcover, hnil, List.map_nil, List.append_nil]
      simp [completionTag]
    · rw [Bool.not_eq_true] at hoe
      simp only [generate_images, contentPhase, hoe, Bool.false_eq_true,
        if_false, hhc, List.filterMap_append, hcover, List.filterMap_cons]
      simp only [completionTag, seqLoop_events_tags env tid pages.length]
      simp [completionTag]

theorem claim_C7_sequential_events_witness :
    (generate_images envFailPage1 pages3 "t" "" [] (otherPages pages3)
      stEmpty).1.filterMap completionTag =
      (match coverPage pages3 with
       | some _ => [(Phase.cover, 0)]
       | none => []) ++
      (otherPages pages3).map (fun p => (Phase.content, p.index)) :=
  claim_C7_sequential_events.2 envFailPage1 pages3 "t" "" []
    (otherPages pages3) stEmpty rfl

/-! ## Claim C9 -/

/-- C9: calling `generate_images` for a task id whose in-memory state
already exists reinitializes it unconditionally: the run — its events and
its entire resulting state — is independent of whatever task state was
previously stored (all previously recorded successes, failures and cover
bytes are discarded), and the resulting task state carries the new call's
page count and outline, with map keys drawn only from the new input
pages. -/
theorem claim_C9_reinitializes :
    ∀ (env : GenEnv) (pages : List Page) (tid outline : String)
      (uimgs : List String) (order : List Page)
      (files : List (String × String)) (dirs : List String)
      (prior₁ prior₂ : Option TaskState),
      (generate_images env pages tid outline uimgs order
          ⟨prior₁, files, dirs⟩ =
        generate_images env pages tid outline uimgs order
          ⟨prior₂, files, dirs⟩) ∧
      (order.Perm (otherPages pages) →
        ∀ ts, (generate_images env pages tid outline uimgs order
            ⟨prior₁, files, dirs⟩).2.taskState = some ts →
          ts.total = pages.length ∧ ts.full_outline = outline ∧
          ∀ i, i ∈ mapKeys ts.generated ∨ i ∈ mapKeys ts.failed →
            ∃ p, p ∈ pages ∧ p.index = i) := by
  intro env pages tid outline uimgs order files dirs prior₁ prior₂
  refine ⟨rfl, ?_⟩
  intro hperm ts hts
  obtain ⟨ts', hts', htot', houtl', huni⟩ :=
    generate_images_union env pages tid outline uimgs order
      ⟨prior₁, files, dirs⟩ hperm
  have hee : ts = ts' := Option.some.inj (hts.symm.trans hts')
  subst hee
  exact ⟨htot', houtl', fun i hi => (huni i).mp hi⟩

theorem claim_C9_reinitializes_witness :
    (generate_images envAllOk pages3 "t" "new" [] (otherPages pages3)
        ⟨some ⟨9, [(7, "7.png")], [(8, "x")], some "OLD", "old"⟩, [], []⟩ =
      generate_images envAllOk pages3 "t" "new" [] (otherPages pages3)
        ⟨none, [], []⟩) ∧
    ((otherPages pages3).Perm (otherPages pages3) →
      ∀ ts, (generate_images envAllOk pages3 "t" "new" []
          (otherPages pages3)
          ⟨some ⟨9, [(7, "7.png")], [(8, "x")], some "OLD", "old"⟩, [],
            []⟩).2.taskState = some ts →
        ts.total = pages3.length ∧ ts.full_outline = "new" ∧
        ∀ i, i ∈ mapKeys ts.generated ∨ i ∈ mapKeys ts.failed →
          ∃ p, p ∈ pages3 ∧ p.index = i) :=
  claim_C9_reinitializes envAllOk pages3 "t" "new" [] (otherPages pages3)
    [] [] (some ⟨9, [(7, "7.png")], [(8, "x")], some "OLD", "old"⟩) none

/-! ## Claim C10 -/

/-- C10: `generate_images` with an empty pages list does not fail: it
yields exactly one event — a successful `finish` with total, completed and
failed all 0 and an empty failed-indices list — while still creating the
task's in-memory state (total 0, empty maps, no cover, the new outline)
and the task directory. -/
theorem claim_C10_empty_pages (env : GenEnv) (tid outline : String)
    (uimgs : List String) (order : List Page) (st : ServiceState) :
    generate_images env [] tid outline uimgs order st =
      ([Event.finish true tid [] 0 0 0 []],
       ⟨some (freshTaskState 0 outline), st.files, addDir st.dirs tid⟩) :=
  rfl

end RedInk
